import Mathlib

/-!
Verification of the AnalizadorComplejidades analysis pipeline.

This file gives a shallow embedding, in Lean 4, of the core analysis pipeline
of the repository: the recursion classifier (`src/analyzer/recurrence_solver.py`),
the formal asymptotic engine (`src/analyzer/asymptotic_analyzer.py`), the
symbolic mathematical engine (`src/analyzer/math_analyzer.py`), the case
analyzer (`src/analyzer/case_analyzer.py`) and the orchestrator
(`src/logic/analysis_orchestrator.py`), together with theorems settling the
behavioural claims made by the specification.

Conventions used throughout:
* The Python AST classes of `src/ast/nodes.py` become the inductive types
  `Expr` / `Stmt` / `FuncDef` / `ProgramL` below.  Statement blocks are lists,
  as produced by the parser transformer (`src/parser/transformer.py`, whose
  `block` rule always returns a Python list).
* Python strings become `String`; numeric string interpolation (`f"...{k}..."`)
  is modelled by `natToStr`, a base-10 renderer mirroring Python `str(int)`.
* sympy expressions become the syntax tree `SymExpr`.  sympy's automatic
  flattening / constant folding of `Add`/`Mul` is not modelled; none of the
  settled claims depends on it.
* Floating point: the asymptotic engine compares `c` with
  `log_b(a) ± 0.01` using `math.log`.  The embedding replaces the float
  comparisons by exact integer-power comparisons (`b^(100c+1) < a^100` etc.),
  which are provably equivalent to the corresponding exact-real-log
  comparisons (see the `master_*_iff` bridge lemmas).
-/

/-! ### String helpers

`containsL l pat` mirrors Python's substring test `pat in l` (note that the
empty pattern is contained in everything, as in Python). -/

def containsL : List Char → List Char → Bool
  | [], pat => pat.isEmpty
  | c :: rest, pat => pat.isPrefixOf (c :: rest) || containsL rest pat

def strContains (s pat : String) : Bool :=
  containsL s.data pat.data

/-- ASCII lower-casing (Python's `str.lower()`; the strings that reach the
analyzers' lower-cased comparisons are ASCII). -/
def strLower (s : String) : String := ⟨s.data.map Char.toLower⟩

/-- Fuel-driven replacement of every non-overlapping occurrence of `pat`
(non-empty) by `rep`, left to right; mirrors Python's `str.replace`. -/
def replaceGo : Nat → List Char → List Char → List Char → List Char
  | 0, l, _, _ => l
  | fuel + 1, l, pat, rep =>
    match l with
    | [] => []
    | c :: rest =>
      if pat.isPrefixOf (c :: rest) && !pat.isEmpty then
        rep ++ replaceGo fuel ((c :: rest).drop pat.length) pat rep
      else c :: replaceGo fuel rest pat rep

/-- Python's `s.replace(pat, rep)` (for non-empty `pat`). -/
def strReplace (s pat rep : String) : String :=
  ⟨replaceGo (s.data.length + 1) s.data pat.data rep.data⟩

/-- Decimal digit characters, used to model Python's `str(int)` rendering. -/
def digitChar : Nat → Char
  | 0 => '0' | 1 => '1' | 2 => '2' | 3 => '3' | 4 => '4'
  | 5 => '5' | 6 => '6' | 7 => '7' | 8 => '8' | _ => '9'

/-- Fuel-driven base-10 rendering (structural recursion, so that concrete
values reduce definitionally). -/
def natCharsGo : Nat → Nat → List Char
  | 0, _ => []
  | fuel + 1, n =>
    if n < 10 then [digitChar n]
    else natCharsGo fuel (n / 10) ++ [digitChar (n % 10)]

/-- Characters of the base-10 rendering of `n` (mirrors Python `str(n)`). -/
def natChars (n : Nat) : List Char := natCharsGo (n + 1) n

/-- Base-10 rendering of a natural number, mirrors Python `str(n)` /
f-string interpolation of a non-negative integer. -/
def natToStr (n : Nat) : String := ⟨natChars n⟩

/-- Numeric value of a decimal digit character (models `int` parsing of one
digit, as done by the regular expressions in the source). -/
def digitVal (c : Char) : Nat := c.toNat - 48

/-- Value of the leading run of decimal digits of `l` (greedy, as `\d+`). -/
def parseDigits (l : List Char) : Nat :=
  (l.takeWhile Char.isDigit).foldl (fun a c => 10 * a + digitVal c) 0

/-- Leftmost match of the regex `n\^(\d+)` (used by `_analyze_loops` in
`src/analyzer/asymptotic_analyzer.py`): find the first position where an `n`
is followed by `^` and at least one digit, and return the digit run's value. -/
def scanPow : List Char → Option Nat
  | [] => none
  | c :: rest =>
    if c = 'n' && (rest.head?.elim false fun c2 => c2 = '^') &&
        ((rest.drop 1).head?.elim false Char.isDigit) then
      some (parseDigits (rest.drop 1))
    else scanPow rest

/-- One attempt, at the current position, to match the regex
`(\d+)T\(n/(\d+)\)` (used by `_construct_recurrence` for divide-and-conquer
relations): a digit run, then `T(n/`, a digit run, and `)`. -/
def tryAB (l : List Char) : Option (Nat × Nat) :=
  let ds := l.takeWhile Char.isDigit
  if ds.isEmpty then none
  else
    match l.drop ds.length with
    | 'T' :: '(' :: 'n' :: '/' :: rest2 =>
      let ds2 := rest2.takeWhile Char.isDigit
      if ds2.isEmpty then none
      else
        match rest2.drop ds2.length with
        | ')' :: _ => some (parseDigits l, parseDigits rest2)
        | _ => none
    | _ => none

/-- Leftmost match of `(\d+)T\(n/(\d+)\)` anywhere in the string. -/
def findAB : List Char → Option (Nat × Nat)
  | [] => none
  | c :: rest =>
    match tryAB (c :: rest) with
    | some ab => some ab
    | none => findAB rest

/-! ### The AST model (`src/ast/nodes.py`)

Expression node kinds.  `condOp` is the `Condition` class, `boolLit` the
`Boolean` class.  Assignment targets (`Assignment.name` in Python holds either
a plain string or an `ArrayAccess`/`MatrixAccess` object) are modelled by
`ATarget`. -/

inductive Expr where
  | var (name : String)
  | num (value : Int)
  | boolLit (value : Bool)
  | binop (left : Expr) (op : String) (right : Expr)
  | unaryop (op : String) (operand : Expr)
  | condOp (left : Expr) (op : String) (right : Expr)
  | boolop (left : Expr) (op : String) (right : Expr)
  | call (fname : String) (args : List Expr)
  | arrayAccess (aname : String) (index : Expr)
  | matrixAccess (mname : String) (row : Expr) (col : Expr)
deriving Repr

inductive ATarget where
  | ident (s : String)
  | arrIdx (aname : String) (idx : Expr)
  | matIdx (mname : String) (row : Expr) (col : Expr)
deriving Repr

inductive Stmt where
  | assign (target : ATarget) (expr : Expr)
  | forS (v : String) (start : Expr) (stop : Expr) (body : List Stmt)
  | whileS (cond : Expr) (body : List Stmt)
  | repeatS (body : List Stmt) (cond : Expr)
  | ifS (cond : Expr) (thenB : List Stmt) (elseB : Option (List Stmt))
  | ret (expr : Option Expr)
  | callS (fname : String) (args : List Expr)
  | arrayDecl (aname : String) (size : Expr)
  | matrixDecl (mname : String) (rows : Expr) (cols : Expr)
deriving Repr

structure FuncDef where
  name : String
  params : List String
  body : List Stmt
deriving Repr

structure ProgramL where
  functions : List FuncDef
deriving Repr

/-! ### The recursion classifier (`src/analyzer/recurrence_solver.py`,
class `RecursiveAlgorithmAnalyzer`)

`find_recursive_calls` mirrors `_find_recursive_calls`.  The Python traversal
has several deliberate quirks that the embedding reproduces:
* the conditions of `While`/`Repeat` loops and the bounds of `For` loops are
  never traversed (only the `body` attribute is followed);
* the operands of `Condition`, `BoolOp`, `UnaryOp`, `ArrayAccess` and
  `MatrixAccess` nodes are never traversed;
* a `Call` node is recorded (when its name matches) and its arguments are
  traversed.
Each recorded call is represented by its argument list. -/

mutual

def frcExpr (fname : String) : Expr → List (List Expr)
  | .call g args =>
    (if g = fname then [args] else []) ++ frcExprList fname args
  | .binop l _ r => frcExpr fname l ++ frcExpr fname r
  | _ => []

def frcExprList (fname : String) : List Expr → List (List Expr)
  | [] => []
  | e :: es => frcExpr fname e ++ frcExprList fname es

def frcStmt (fname : String) : Stmt → List (List Expr)
  | .assign _ e => frcExpr fname e
  | .ret (some e) => frcExpr fname e
  | .ret none => []
  | .ifS c t e =>
    frcExpr fname c ++ frcStmtList fname t ++
      (match e with
       | some es => frcStmtList fname es
       | none => [])
  | .forS _ _ _ b => frcStmtList fname b
  | .whileS _ b => frcStmtList fname b
  | .repeatS b _ => frcStmtList fname b
  | .callS g args =>
    (if g = fname then [args] else []) ++ frcExprList fname args
  | _ => []

def frcStmtList (fname : String) : List Stmt → List (List Expr)
  | [] => []
  | s :: rest => frcStmt fname s ++ frcStmtList fname rest

end

/-- `find_recursive_calls` applied to a whole function node (the Python code
calls `traverse(function_node)`, which follows the `body` attribute). -/
def find_recursive_calls (f : FuncDef) : List (List Expr) :=
  frcStmtList f.name f.body

/-- `_is_recursive_call`: the expression is literally a `Call` whose name is
the enclosing function's name. -/
def is_recursive_call (fname : String) : Option Expr → Bool
  | some (.call g _) => g = fname
  | _ => false

/-! `_node_contains_recursive_return` / `_branch_has_recursive_return`:
a `Return` whose expression is a direct recursive `Call`; nested `If`s and
`body`-carrying statements are searched; an `Assignment` whose `expr` is a
direct recursive call also counts (the Python code's final
`hasattr(node, 'expr')` check). -/

mutual

def nodeCRR (fname : String) : Stmt → Bool
  | .ret e => is_recursive_call fname e
  | .ifS _ t e =>
    branchCRR fname t ||
      (match e with
       | some es => branchCRR fname es
       | none => false)
  | .forS _ _ _ b => branchCRR fname b
  | .whileS _ b => branchCRR fname b
  | .repeatS b _ => branchCRR fname b
  | .assign _ e => is_recursive_call fname (some e)
  | _ => false

def branchCRR (fname : String) : List Stmt → Bool
  | [] => false
  | s :: rest => nodeCRR fname s || branchCRR fname rest

end

/-! `_has_mutually_exclusive_recursive_returns`: some `If` (possibly nested
inside branches or loop bodies) has a recursive return in BOTH branches. -/

mutual

def mexStmt (fname : String) : Stmt → Bool
  | .ifS _ t e =>
    (branchCRR fname t &&
      (match e with
       | some es => branchCRR fname es
       | none => false)) ||
    mexList fname t ||
      (match e with
       | some es => mexList fname es
       | none => false)
  | .forS _ _ _ b => mexList fname b
  | .whileS _ b => mexList fname b
  | .repeatS b _ => mexList fname b
  | _ => false

def mexList (fname : String) : List Stmt → Bool
  | [] => false
  | s :: rest => mexStmt fname s || mexList fname rest

end

def has_mutually_exclusive_recursive_returns (f : FuncDef) : Bool :=
  mexList f.name f.body

/-- The `op` attribute of an expression node, when the Python class has one
(`BinOp`, `UnaryOp`, `Condition`, `BoolOp`); mirrors `hasattr(arg, 'op')`. -/
def exprOp : Expr → Option String
  | .binop _ op _ => some op
  | .unaryop op _ => some op
  | .condOp _ op _ => some op
  | .boolop _ op _ => some op
  | _ => none

/-- The literal value of the `right` attribute of an operator node, when that
attribute exists and itself has a `value` attribute (a `Number`); mirrors
`hasattr(arg, 'right') and hasattr(arg.right, 'value')` in
`_analyze_call_pattern`. -/
def rightValue : Expr → Option Int
  | .binop _ _ (.num v) => some v
  | .condOp _ _ (.num v) => some v
  | .boolop _ _ (.num v) => some v
  | _ => none

/-- `_argument_mentions_midpoint`: a `Var` whose lowercase name contains
`mid`, searched through `BinOp` operands. -/
def argument_mentions_midpoint : Expr → Bool
  | .var nm => strContains (strLower nm) "mid"
  | .binop l _ r => argument_mentions_midpoint l || argument_mentions_midpoint r
  | _ => false

/-- The result record of `_analyze_call_pattern` (the keys of the returned
Python dict; `call_count` is only present for the `multiple` pattern and
defaults to `0` otherwise). -/
structure PatternInfo where
  pattern_type : String
  has_division : Bool := false
  has_subtraction : Bool := false
  has_multiple_subtractions : Bool := false
  call_count : Nat := 0
deriving Repr, DecidableEq

/-- `_analyze_call_pattern`: classify by number of calls, argument shape and
exclusivity.  `calls` is the list of argument lists of the recursive calls. -/
def analyze_call_pattern (calls : List (List Expr)) (exclusive : Bool) :
    PatternInfo :=
  let numCalls := calls.length
  if numCalls = 0 then { pattern_type := "none" }
  else
    let args := calls.flatten
    let hasDivision := args.any fun a => exprOp a = some "/"
    let hasSubtraction := args.any fun a => exprOp a = some "-"
    let subtractionValues :=
      args.filterMap fun a =>
        if exprOp a = some "-" then rightValue a else none
    let hasMid := args.any argument_mentions_midpoint
    let hasMultipleSubtractions :=
      decide (2 ≤ subtractionValues.length) &&
        decide (2 ≤ subtractionValues.dedup.length)
    let noOperatorsInArgs := !hasDivision && !hasSubtraction
    if numCalls = 1 then
      if hasDivision then
        { pattern_type := "divide_conquer", has_division := hasDivision,
          has_subtraction := hasSubtraction,
          has_multiple_subtractions := hasMultipleSubtractions }
      else
        { pattern_type := "linear", has_division := hasDivision,
          has_subtraction := hasSubtraction,
          has_multiple_subtractions := hasMultipleSubtractions }
    else if numCalls = 2 then
      if exclusive then
        { pattern_type := "binary_exclusive", has_division := hasDivision,
          has_subtraction := hasSubtraction,
          has_multiple_subtractions := hasMultipleSubtractions }
      else if hasMultipleSubtractions then
        { pattern_type := "binary", has_division := hasDivision,
          has_subtraction := hasSubtraction,
          has_multiple_subtractions := hasMultipleSubtractions }
      else if hasDivision then
        { pattern_type := "divide_conquer", has_division := hasDivision,
          has_subtraction := hasSubtraction,
          has_multiple_subtractions := hasMultipleSubtractions }
      else if noOperatorsInArgs || hasMid then
        { pattern_type := "divide_conquer", has_division := hasDivision,
          has_subtraction := hasSubtraction,
          has_multiple_subtractions := hasMultipleSubtractions }
      else
        { pattern_type := "divide_conquer", has_division := hasDivision,
          has_subtraction := hasSubtraction,
          has_multiple_subtractions := hasMultipleSubtractions }
    else
      { pattern_type := "multiple", call_count := numCalls,
        has_division := hasDivision, has_subtraction := hasSubtraction,
        has_multiple_subtractions := hasMultipleSubtractions }

/-- `_calls_use_size_param`: some recursive-call argument is `BinOp(v, '-', _)`
where `v` is a `Var` whose lowercase name equals a parameter name (lowercased)
or the literal `n`. -/
def calls_use_size_param (calls : List (List Expr)) (params : List String) :
    Bool :=
  calls.any fun args =>
    args.any fun a =>
      match a with
      | .binop (.var l) op _ =>
        op = "-" &&
          (params.any (fun p => strLower p = strLower l) || strLower l = "n")
      | _ => false

/-- `_derive_recurrence_relation`. -/
def derive_recurrence_relation (f : FuncDef) (calls : List (List Expr))
    (exclusive : Bool) : Option String :=
  if calls.isEmpty then none
  else if exclusive then some "T(n) = T(n/2) + O(1)"
  else
    let numCalls := calls.length
    let info := analyze_call_pattern calls exclusive
    let usesSizeParam := calls_use_size_param calls f.params
    if info.pattern_type = "linear" then some "T(n) = T(n-1) + O(1)"
    else if info.pattern_type = "binary" then
      if !info.has_multiple_subtractions then some "T(n) = T(n/2) + O(n)"
      else some "T(n) = T(n-1) + T(n-2) + O(1)"
    else if info.pattern_type = "binary_exclusive" then
      some "T(n) = T(n/2) + O(1)"
    else if info.pattern_type = "divide_conquer" then
      if numCalls = 2 && info.has_subtraction && !info.has_division &&
          usesSizeParam then
        some "T(n) = 2T(n-1) + O(1)"
      else if numCalls = 1 then some "T(n) = T(n/2) + O(1)"
      else if numCalls = 2 then some "T(n) = 2T(n/2) + O(n)"
      else
        some ("T(n) = " ++ natToStr numCalls ++ "T(n/" ++ natToStr numCalls ++
          ") + O(n)")
    else if info.pattern_type = "multiple" then
      some ("T(n) = " ++ natToStr info.call_count ++ "T(n-1) + O(1)")
    else
      if numCalls = 1 then some "T(n) = T(n-1) + O(1)"
      else some ("T(n) = " ++ natToStr numCalls ++ "T(n-1) + O(1)")

/-- The analysis record produced by `analyze_recursive_algorithm` (the keys of
the Python dict that the verified claims consume; presentation-only keys such
as `work_per_call`, `base_cases` and `estimated_complexity` are omitted). -/
structure RecInfo where
  function_name : String
  has_recursion : Bool
  recursive_calls : List (List Expr)
  pattern_type : String
  recurrence_relation : Option String
  exclusive_branch_calls : Bool
deriving Repr

/-- `analyze_recursive_algorithm` (caching is a pure memoisation and is not
modelled). -/
def analyze_recursive_algorithm (f : FuncDef) : RecInfo :=
  let calls := find_recursive_calls f
  let exclusive := has_mutually_exclusive_recursive_returns f
  if calls.isEmpty then
    { function_name := f.name, has_recursion := false, recursive_calls := [],
      pattern_type := "none", recurrence_relation := none,
      exclusive_branch_calls := exclusive }
  else
    { function_name := f.name, has_recursion := true,
      recursive_calls := calls,
      pattern_type := (analyze_call_pattern calls exclusive).pattern_type,
      recurrence_relation := derive_recurrence_relation f calls exclusive,
      exclusive_branch_calls := exclusive }

/-! ### The formal asymptotic engine (`src/analyzer/asymptotic_analyzer.py`)

`RecurrenceEquation` and `AsymptoticBound` mirror the dataclasses of the
source.  `base_cases` (a Python dict built from string literals, iterated in
insertion order) is a list of pairs; `notation` is the field the source calls
`notation` ("Θ"/"O"/"Ω"); `confidence` (a Python float between 0 and 1)
is a rational; the presentation-only `explanation` string (which interpolates
floating-point values) is omitted. -/

structure RecurrenceEquation where
  equation : String
  a : Option Nat
  b : Option Nat
  f_n : String
  base_cases : List (String × String)
  method_used : String
deriving Repr, DecidableEq

structure AsymptoticBound where
  complexity : String
  notat : String
  confidence : ℚ
deriving Repr, DecidableEq

/-! `_count_loop_depth`: maximum loop-nesting depth.  `cldMax d acc l` folds
`max acc (cldStmt d s)` over the statements `s` of `l`, mirroring the Python
loop `for stmt in body: max_depth = max(max_depth, depth(stmt, d))` with
`max_depth` starting at the CURRENT depth (so a loop whose body is the empty
list contributes nothing - see claim C4). -/

mutual

def cldStmt (cur : Nat) : Stmt → Nat
  | .forS _ _ _ b => cldMax (cur + 1) cur b
  | .whileS _ b => cldMax (cur + 1) cur b
  | .repeatS b _ => cldMax (cur + 1) cur b
  | .ifS _ t e =>
    let m := cldMax cur cur t
    match e with
    | some es => cldMax cur m es
    | none => m
  | _ => cur

def cldMax (d acc : Nat) : List Stmt → Nat
  | [] => acc
  | s :: rest => cldMax d (max acc (cldStmt d s)) rest

end

/-- `_count_loop_depth` applied to a `Function` node with initial depth 0. -/
def count_loop_depth (f : FuncDef) : Nat :=
  cldMax 0 0 f.body

/-- `_analyze_iterative`: build the loop-analysis recurrence equation.  (The
Python function also computes a local `complexity` string, which it discards;
only the equation is returned.) -/
def analyze_iterative (f : FuncDef) : RecurrenceEquation :=
  let loopDepth := count_loop_depth f
  let equation :=
    if loopDepth = 0 then "T(n) = c"
    else if loopDepth = 1 then "T(n) = cn"
    else if loopDepth = 2 then "T(n) = cn²"
    else "T(n) = cn^" ++ natToStr loopDepth
  { equation := equation, a := none, b := none, f_n := "c",
    base_cases := [("T(0)", "c")], method_used := "Loop Analysis" }

/-- Polynomial degree `c` extracted from the `f_n` string by
`_apply_master_theorem` (`"c"`/`"1"` ↦ 0, `"n"` ↦ 1, `"n^2"` ↦ 2, otherwise
the regex `n\^(\d+)` with default 1). -/
def degreeOfFn (fn : String) : Nat :=
  if fn = "c" || fn = "1" then 0
  else if fn = "n" then 1
  else if fn = "n^2" then 2
  else
    match scanPow fn.data with
    | some k => k
    | none => 1

/-! Exact replacements for the float comparisons of `_apply_master_theorem`
(with `epsilon = 0.01`): for `a ≥ 1`, `b ≥ 2` and `L = log_b(a)`,
* `c < L - ε`  ⟺  `b^(100c+1) < a^100`   (`masterBelow`),
* `|c - L| < ε` ⟺ `a^100 < b^(100c+1) ∧ b^(100c) < a^100 * b` (`masterClose`).
The equivalences with the real-logarithm statements are proved in the
`master_*_iff` lemmas below. -/

def masterBelow (a b c : Nat) : Bool := b ^ (100 * c + 1) < a ^ 100

def masterClose (a b c : Nat) : Bool :=
  a ^ 100 < b ^ (100 * c + 1) && b ^ (100 * c) < a ^ 100 * b

/-- Whether `log_b(a)` is within `0.01` of the integer `k` (used by
`_format_complexity`'s `abs(value - round(value)) < 0.01` test). -/
def logNearInt (a b k : Nat) : Bool :=
  a ^ 100 < b ^ (100 * k + 1) && b ^ (100 * k) < a ^ 100 * b

/-- Render `n^k` as `_format_complexity` does for (near-)integer exponents. -/
def renderPow (k : Nat) : String :=
  if k = 0 then "1"
  else if k = 1 then "n"
  else "n^" ++ natToStr k

/-- `_format_complexity` for the exact value `log_b(a)`: integer rendering
when the value is within `0.01` of an integer (`round(log_b a)` is `⌊log_b a⌋`
or `⌊log_b a⌋ + 1`), otherwise a two-decimal rendering.  The non-integer
branch renders `⌊100·log_b(a)⌋ / 100` with two decimals (the source formats
the float with `"%.2f"`, which rounds instead of truncating; no verified claim
inspects this branch). -/
def format_complexity (a b : Nat) : String :=
  let k0 := Nat.log b a
  if logNearInt a b k0 then renderPow k0
  else if logNearInt a b (k0 + 1) then renderPow (k0 + 1)
  else
    let m := Nat.log b (a ^ 100)
    "n^" ++ natToStr (m / 100) ++ "." ++
      (if m % 100 < 10 then "0" else "") ++ natToStr (m % 100)

/-- `_apply_master_theorem`. -/
def apply_master_theorem (rec : RecurrenceEquation) : AsymptoticBound :=
  match rec.a, rec.b with
  | some a, some b =>
    let c := degreeOfFn rec.f_n
    if masterBelow a b c then
      { complexity := format_complexity a b, notat := "Θ",
        confidence := 95 / 100 }
    else if masterClose a b c then
      { complexity :=
          if c = 0 then "log n"
          else if c = 1 then "n log n"
          else "n^" ++ natToStr c ++ " log n",
        notat := "Θ", confidence := 95 / 100 }
    else
      { complexity := if c = 1 then "n" else "n^" ++ natToStr c,
        notat := "Θ", confidence := 95 / 100 }
  | _, _ => { complexity := "n", notat := "Θ", confidence := 7 / 10 }

/-- `_apply_substitution` (`a = rec.a if rec.a else 1`: both `None` and `0`
fall back to 1, mirroring Python truthiness). -/
def apply_substitution (rec : RecurrenceEquation) : AsymptoticBound :=
  let a := match rec.a with
    | none => 1
    | some v => if v = 0 then 1 else v
  if a = 1 then { complexity := "n", notat := "Θ", confidence := 95 / 100 }
  else
    { complexity := natToStr a ++ "^n", notat := "Θ", confidence := 95 / 100 }

/-- `_apply_tree_method`. -/
def apply_tree_method (rec : RecurrenceEquation) : AsymptoticBound :=
  if strContains rec.equation "T(n-1) + T(n-2)" then
    { complexity := "2^n", notat := "Θ", confidence := 9 / 10 }
  else
    let aTruthy := match rec.a with
      | none => false
      | some v => decide (1 < v)
    if aTruthy then
      { complexity := natToStr (rec.a.getD 0) ++ "^n", notat := "Θ",
        confidence := 9 / 10 }
    else { complexity := "n", notat := "Θ", confidence := 9 / 10 }

/-- `_analyze_loops`: re-extract the complexity from the equation string. -/
def analyze_loops (rec : RecurrenceEquation) : AsymptoticBound :=
  let equation := rec.equation
  let complexity :=
    if strContains equation "n^" then
      match scanPow equation.data with
      | some power => "n^" ++ natToStr power
      | none => "n"
    else if strContains equation "n²" then "n^2"
    else if strContains equation "cn" || strContains equation "T(n) = n" then
      "n"
    else "1"
  { complexity := complexity, notat := "Θ", confidence := 95 / 100 }

/-- `_solve_recurrence`: dispatch on `method_used`. -/
def solve_recurrence (rec : RecurrenceEquation) : AsymptoticBound :=
  if rec.method_used = "Master Theorem" then apply_master_theorem rec
  else if rec.method_used = "Substitution" then apply_substitution rec
  else if rec.method_used = "Recurrence Tree" then apply_tree_method rec
  else if rec.method_used = "Loop Analysis" then analyze_loops rec
  else { complexity := "n", notat := "O", confidence := 1 / 2 }

/-- `_construct_recurrence`, specialised to the case where the analysed node
is a `Function` (the path taken by `analyze_function_node`, used by the
orchestrator).  On this path `hasattr(node, 'functions')` is `False`, so in
the `binary` branch the function-name strategy and the middle-calculation
strategy never fire (`is_binary_search` stays `False`), and in the
`divide_conquer` branch `has_loop` stays `False`.

NOTE: the source has no case for `pattern_type == 'binary_exclusive'`; that
pattern falls into the final `else` branch (claim C1). -/
def construct_recurrence_fn (f : FuncDef) (info : RecInfo) :
    RecurrenceEquation :=
  if !info.has_recursion then analyze_iterative f
  else
    let numCalls := info.recursive_calls.length
    if info.pattern_type = "linear" then
      { equation := "T(n) = T(n-1) + c", a := some 1, b := none, f_n := "c",
        base_cases := [("T(0)", "c"), ("T(1)", "c")],
        method_used := "Substitution" }
    else if info.pattern_type = "binary" then
      -- is_binary_search = False on this path; strategy 3 checks the first
      -- two recorded calls for an argument `_ - 1` or `_ - 2`.
      let hasFibonacciDecrements :=
        (info.recursive_calls.take 2).any fun args =>
          args.any fun a =>
            match a with
            | .binop _ op (.num v) => op = "-" && (v = 1 || v = 2)
            | _ => false
      if hasFibonacciDecrements then
        { equation := "T(n) = T(n-1) + T(n-2) + c", a := some 2, b := none,
          f_n := "c", base_cases := [("T(0)", "c"), ("T(1)", "c")],
          method_used := "Recurrence Tree" }
      else
        -- default: assume the Fibonacci shape when there are 2 calls
        { equation := "T(n) = T(n-1) + T(n-2) + c", a := some 2, b := none,
          f_n := "c", base_cases := [("T(0)", "c"), ("T(1)", "c")],
          method_used := "Recurrence Tree" }
    else if info.pattern_type = "divide_conquer" then
      let relation := info.recurrence_relation.getD ""
      let ab := match findAB relation.data with
        | some ab => ab
        | none => (numCalls, 2)
      let fn :=
        if strContains relation "O(n)" ||
            strContains (strLower relation) "+ n" then "n"
        else "c"
      { equation := "T(n) = " ++ natToStr ab.1 ++ "T(n/" ++ natToStr ab.2 ++
          ") + " ++ fn,
        a := some ab.1, b := some ab.2, f_n := fn,
        base_cases := [("T(1)", "c")], method_used := "Master Theorem" }
    else
      { equation := "T(n) = " ++ natToStr numCalls ++ "T(n-1) + c",
        a := some numCalls, b := none, f_n := "c",
        base_cases := [("T(0)", "c"), ("T(1)", "c")],
        method_used := "Substitution" }

/-- `analyze_function_node`: construct, solve, and apply the final
"safety correction" that rewrites an empty/`"1"` complexity to `"n"` for the
`linear` pattern. -/
def analyze_function_node (f : FuncDef) (info : RecInfo) :
    RecurrenceEquation × AsymptoticBound :=
  let rec' := construct_recurrence_fn f info
  let bound := solve_recurrence rec'
  let bound' :=
    if info.pattern_type = "linear" &&
        (bound.complexity = "1" || bound.complexity = "") then
      { bound with complexity := "n", notat := "Θ" }
    else bound
  (rec', bound')

/-- The orchestrator's rendering `f"{bound.notation}({bound.complexity})"`
of a bound (field `heur_complexity` of the analysis result). -/
def fmtBound (b : AsymptoticBound) : String :=
  b.notat ++ "(" ++ b.complexity ++ ")"

/-! ### The symbolic mathematical engine (`src/analyzer/math_analyzer.py`)

`SymExpr` is a syntax tree for the sympy expressions the cost visitor builds:
integers, the size symbol `n`, named symbols (`Symbol('k')`, `val_<Type>`
placeholders), the recurrence term `T(·)`, the per-function cost placeholders
`Function("T_<name>")(n)`, arithmetic, `Max`, and unsolved symbolic sums
`Sum(body, (var, lo, hi))` (whose `.doit()` simplification is not modelled).
sympy's canonicalisation (flattening, commutative sorting, constant folding)
is not modelled; the verified claims are stated against the constructions the
source performs. -/

inductive SymExpr where
  | intE (z : Int)
  | nE
  | symE (name : String)
  | tApp (arg : SymExpr)
  | tOther (fname : String)
  | addE (x y : SymExpr)
  | subE (x y : SymExpr)
  | mulE (x y : SymExpr)
  | divE (x y : SymExpr)
  | maxE (x y : SymExpr)
  | sumE (body : SymExpr) (v : String) (lo hi : SymExpr)
deriving Repr, DecidableEq

/-- `_expr_has_recurrence`: the expression contains a `T(·)` term (the
`T_<name>` placeholders are different sympy functions and do not count). -/
def symHasT : SymExpr → Bool
  | .tApp _ => true
  | .addE x y | .subE x y | .mulE x y | .divE x y | .maxE x y =>
    symHasT x || symHasT y
  | .sumE b _ lo hi => symHasT b || symHasT lo || symHasT hi
  | _ => false

/-- Python's `sum(list)` over sympy costs: starts from `int 0`, which sympy's
`Add` absorbs; the embedding drops the leading zero for non-empty lists. -/
def sumCosts : List SymExpr → SymExpr
  | [] => .intE 0
  | [c] => c
  | c :: rest => rest.foldl SymExpr.addE c

/-- The Python class name of an expression node (used for the
`val_<TypeName>` placeholder of `_get_value_default`). -/
def pyTypeName : Expr → String
  | .var _ => "Var"
  | .num _ => "Number"
  | .boolLit _ => "Boolean"
  | .binop _ _ _ => "BinOp"
  | .unaryop _ _ => "UnaryOp"
  | .condOp _ _ _ => "Condition"
  | .boolop _ _ _ => "BoolOp"
  | .call _ _ => "Call"
  | .arrayAccess _ _ => "ArrayAccess"
  | .matrixAccess _ _ _ => "MatrixAccess"

/-- `_get_value`: symbolic value of an expression (`Var 'n'` ↦ the size
symbol, numbers ↦ integers, `BinOp` ↦ the corresponding operation with `+` as
the unknown-operator default, everything else ↦ a `val_<Type>` symbol).
sympy folds arithmetic on concrete numbers; that folding is not modelled. -/
def getValue : Expr → SymExpr
  | .var v => if v = "n" then .nE else .symE v
  | .num k => .intE k
  | .binop l op r =>
    let lv := getValue l
    let rv := getValue r
    if op = "+" then .addE lv rv
    else if op = "-" then .subE lv rv
    else if op = "*" then .mulE lv rv
    else if op = "/" then .divE lv rv
    else .addE lv rv
  | e => .symE ("val_" ++ pyTypeName e)

/-! `_get_cost`: the dynamic-dispatch cost visitor.  The source defines
`_get_cost_<T>` only for `Function`, `If`, `For`, `While`, `Assignment`,
`Return`, `BinOp`, `Condition`, `Call`, `Var`, `Number` and `Program`; every
other node class (`Repeat`, `Boolean`, `UnaryOp`, `BoolOp`, `ArrayAccess`,
`MatrixAccess`, `ArrayDeclaration`, `MatrixDeclaration`) falls back to
`_get_cost_default`, which returns the constant 1.  `cur` is the enclosing
function name, `known` the names with entries in `function_costs`. -/

mutual

def gcExpr (cur : String) (known : List String) : Expr → SymExpr
  | .var _ => .intE 1
  | .num _ => .intE 1
  | .binop l _ r =>
    .addE (.addE (gcExpr cur known l) (gcExpr cur known r)) (.intE 1)
  | .condOp l _ r =>
    .addE (.addE (gcExpr cur known l) (gcExpr cur known r)) (.intE 1)
  | .call g args =>
    let argCosts := sumCosts (gcExprList cur known args)
    if g = cur then
      match args with
      | a0 :: _ => .addE argCosts (.tApp (getValue a0))
      | [] => .addE argCosts (.tApp .nE)
    else
      .addE argCosts (if known.contains g then .tOther g else .intE 1)
  | _ => .intE 1

def gcExprList (cur : String) (known : List String) : List Expr →
    List SymExpr
  | [] => []
  | e :: es => gcExpr cur known e :: gcExprList cur known es

def gcStmt (cur : String) (known : List String) : Stmt → SymExpr
  | .assign _ e => .addE (gcExpr cur known e) (.intE 1)
  | .ret (some e) => gcExpr cur known e
  | .ret none => .intE 1
  | .ifS c t e =>
    let conditionCost := gcExpr cur known c
    let thenCost := sumCosts (gcStmtList cur known t)
    let elseCost := match e with
      | some es => sumCosts (gcStmtList cur known es)
      | none => .intE 0
    let branchCost :=
      if symHasT thenCost && symHasT elseCost then .maxE thenCost elseCost
      else if symHasT thenCost then thenCost
      else if symHasT elseCost then elseCost
      else .maxE thenCost elseCost
    .addE conditionCost branchCost
  | .forS v s e b =>
    let bodyCost := sumCosts (gcStmtList cur known b)
    if bodyCost = .intE 0 then .intE 0
    else
      let startVal := getValue s
      let endVal := getValue e
      let totalCost := match startVal, endVal with
        | .intE ms, .intE ke => .mulE (.intE (ke - ms + 1)) bodyCost
        | sv, ev => .sumE bodyCost v sv ev
      let boundsCost := .addE (gcExpr cur known s) (gcExpr cur known e)
      .addE totalCost boundsCost
  | .whileS c b =>
    .mulE (.symE "k")
      (.addE (gcExpr cur known c) (sumCosts (gcStmtList cur known b)))
  | .repeatS _ _ => .intE 1
  | .callS g args =>
    let argCosts := sumCosts (gcExprList cur known args)
    if g = cur then
      match args with
      | a0 :: _ => .addE argCosts (.tApp (getValue a0))
      | [] => .addE argCosts (.tApp .nE)
    else
      .addE argCosts (if known.contains g then .tOther g else .intE 1)
  | _ => .intE 1

def gcStmtList (cur : String) (known : List String) : List Stmt →
    List SymExpr
  | [] => []
  | s :: rest => gcStmt cur known s :: gcStmtList cur known rest

end

/-- The result of `_get_cost_Function`: a plain cost expression, or the
recurrence equation `Eq(T(n), rhs)` when the body cost contains `T(·)`. -/
inductive CostResult where
  | pure (e : SymExpr)
  | eqn (rhs : SymExpr)
deriving Repr, DecidableEq

def get_cost_Function (known : List String) (f : FuncDef) : CostResult :=
  let bodyCost := sumCosts (gcStmtList f.name known f.body)
  if symHasT bodyCost then .eqn bodyCost else .pure bodyCost

/-- An argument of `MathematicalAnalyzer.analyze`: either a `Program` AST
node, or any other Python value (represented by a description string). -/
inductive AnalyzeInput where
  | prog (p : ProgramL)
  | notProgram (descr : String)

/-- `MathematicalAnalyzer.analyze`.  The `isinstance` type check raises
`TypeError("Se esperaba un nodo Program.")` before anything else; for a
`Program` node every function receives an entry keyed by its name.  The
solving of each cost result (sympy `rsolve`, limits, `O(·)` - the external
CAS) is abstracted as the `solve` argument; claim C10 only concerns the type
check and the shape of the returned map. -/
def math_analyze (solve : CostResult → String) :
    AnalyzeInput → Except String (List (String × String))
  | .notProgram _ => .error "Se esperaba un nodo Program."
  | .prog p =>
    let known := p.functions.map FuncDef.name
    .ok (p.functions.map fun f => (f.name, solve (get_cost_Function known f)))

/-! ### The case analyzer (`src/analyzer/case_analyzer.py`)

`CaseAnalysis` keeps the fields the verified claims inspect (`case_type`,
`complexity`); the narrative fields (`scenario`, `ejemplo`, `explanation`) are
presentation-only strings and are omitted.  The structural AST predicates
(`_detect_algorithm_type`, `_has_binary_search_pattern`,
`_count_active_recursive_calls`) are reflection-based traversals whose outputs
feed the decision logic; they are passed in as parameters (`detected`,
`hasBSPattern`, `activeRecCalls`). -/

structure CaseAnalysis where
  case_type : String
  complexity : String
deriving Repr, DecidableEq

/-- Python's `a or b` for strings: `b` when `a` is empty. -/
def strOrElse (a b : String) : String := if a = "" then b else a

/-- `_validate_and_refine_type`.  Note that the source lowercases the
complexity string but NOT the recurrence string (so the `"t(n-1)"` tests can
only match a lowercase recurrence). -/
def validate_and_refine_type (detected : String) (hasBSPattern : Bool)
    (activeRecCalls : Nat) (recurrence complexity : String) : String :=
  let recurrence := strReplace recurrence " " ""
  let complexityLow := strLower complexity
  if strContains recurrence "t(n-1)" && strContains recurrence "t(n-2)" then
    "fibonacci"
  else if
      (strContains recurrence "t(n/2)" ||
        strContains recurrence "t(n/2)+o(1)") &&
      (strContains complexityLow "log" && !strContains complexityLow "nlog" &&
        !strContains complexityLow "2^") then
    "binary_search"
  else if hasBSPattern then "binary_search"
  else if strContains complexityLow "nlog" ||
      strContains complexityLow "n*log" then
    "divide_conquer"
  else if strContains complexityLow "2^" || strContains complexityLow "exp(" ||
      strContains complexityLow "2" then
    if 2 ≤ activeRecCalls then "fibonacci" else "recursive"
  else detected

/-- Complexity reported by `_analyze_best_case` (`comp` is the complexity
string passed down, `isQuick` is irrelevant here). -/
def best_case_complexity (algorithmType comp : String) : String :=
  if algorithmType = "divide_conquer" then "Θ(n log n)"
  else if algorithmType = "nested_loops" then strOrElse comp "Θ(n²)"
  else if algorithmType = "fibonacci" then strOrElse comp "Θ(2ⁿ)"
  else if algorithmType = "binary_search" then "Θ(1)"
  else if algorithmType = "prime_test" then "Θ(1)"
  else if algorithmType = "recursive" then strOrElse comp "Θ(n)"
  else if algorithmType = "linear_search" then "Θ(1)"
  else if algorithmType = "linear_processing" then strOrElse comp "Θ(n)"
  else if algorithmType = "constant" then "Θ(1)"
  else strOrElse comp "Θ(1)"

/-- Complexity reported by `_analyze_worst_case`.  For `divide_conquer` the
quick-sort marker is a substring test on the function name (the `Var`
attribute scan over `dir(f)` never finds a `Var` instance, since a `Function`
node's attributes are a string and two lists). -/
def worst_case_complexity (algorithmType comp funcName : String) : String :=
  if algorithmType = "nested_loops" then strOrElse comp "Θ(n²)"
  else if algorithmType = "divide_conquer" then
    let funcLower := strLower funcName
    if strContains funcLower "quick" || strContains funcLower "qsort" then
      "Θ(n²)"
    else strOrElse comp "Θ(n log n)"
  else if algorithmType = "recursive" then strOrElse comp "Θ(n)"
  else if algorithmType = "fibonacci" then "Θ(2ⁿ) ≈ Θ(2ⁿ)"
  else if algorithmType = "binary_search" then "Θ(log n)"
  else if algorithmType = "prime_test" then "Θ(n)"
  else if algorithmType = "linear_search" then "Θ(n)"
  else if algorithmType = "linear_processing" then strOrElse comp "Θ(n)"
  else if algorithmType = "constant" then "Θ(1)"
  else strOrElse comp "Θ(n)"

/-- Complexity reported by `_analyze_average_case`. -/
def average_case_complexity (algorithmType comp : String) : String :=
  if algorithmType = "fibonacci" then "Θ(2ⁿ) ≈ Θ(2ⁿ)"
  else if algorithmType = "binary_search" then "Θ(log n)"
  else if algorithmType = "prime_test" then "Θ(n)"
  else if algorithmType = "divide_conquer" then "Θ(n log n)"
  else if algorithmType = "recursive" then strOrElse comp "Θ(n)"
  else if algorithmType = "nested_loops" then strOrElse comp "Θ(n²)"
  else if algorithmType = "linear_search" then "Θ(n/2) = Θ(n)"
  else if algorithmType = "linear_processing" then strOrElse comp "Θ(n)"
  else if algorithmType = "constant" then "Θ(1)"
  else strOrElse comp "Θ(n)"

/-- The algorithm type `analyze_all_cases` settles on before building the
triple: the structurally detected type (falling back to the caller-provided
one when detection yields `unknown`), refined by
`_validate_and_refine_type` when a recurrence or complexity string is
available. -/
def determined_algorithm_type (detected given : String) (hasBSPattern : Bool)
    (activeRecCalls : Nat) (recurrenceEq complexity : String) : String :=
  let algorithmType :=
    if detected ≠ "unknown" then detected
    else strOrElse given "unknown"
  if recurrenceEq = "" ∧ complexity = "" then algorithmType
  else
    validate_and_refine_type algorithmType hasBSPattern activeRecCalls
      recurrenceEq complexity

/-- `analyze_all_cases`.  When neither a recurrence nor a complexity string is
given, the source calls `self._build_math_based_cases(...)`, a method that is
not defined anywhere in the class, so that path raises `AttributeError`;
it is modelled as the error case. -/
def analyze_all_cases (detected given : String) (hasBSPattern : Bool)
    (activeRecCalls : Nat) (funcName : String)
    (recurrenceEq complexity : String) :
    Except String (CaseAnalysis × CaseAnalysis × CaseAnalysis) :=
  let t := determined_algorithm_type detected given hasBSPattern
    activeRecCalls recurrenceEq complexity
  if recurrenceEq = "" ∧ complexity = "" then
    .error
      "AttributeError: 'CaseAnalyzer' object has no attribute '_build_math_based_cases'"
  else
    .ok
      (⟨"best", best_case_complexity t complexity⟩,
       ⟨"worst", worst_case_complexity t complexity funcName⟩,
       ⟨"average", average_case_complexity t complexity⟩)

/-! ### The orchestrator (`src/logic/analysis_orchestrator.py`)

`AnalysisResultL` mirrors the `AnalysisResult` dataclass fields the claims
consume, with the dataclass defaults.  The wall-clock `elapsed_ms`
measurement, the AST handle, and the LLM enrichment fields (the orchestrator
is modelled with `use_llm=False`, its default) are omitted;
`tree_structure_data` is kept abstract as a list of strings. -/

structure AnalysisResultL where
  filename : String
  name : String
  code : String
  math_expression : String := "N/A"
  math_complexity : String := "N/A"
  heur_equation : String := "N/A"
  heur_base_cases : String := "N/A"
  heur_complexity : String := "N/A"
  heur_notation : String := "O(?)"
  heur_method : String := "N/A"
  is_recursive : Bool := false
  recursion_pattern : String := "iterative"
  tree_structure_data : List String := []
  level_costs : List String := []
  error : Option String := none
deriving Repr, DecidableEq

/-- Python `dict.get(key, default)` over an association list. -/
def lookupD (xs : List (String × String)) (k d : String) : String :=
  match xs.find? (fun kv => kv.1 = k) with
  | some kv => kv.2
  | none => d

/-- The orchestrator's call `self.heur_engine.estimate_level_costs(eq)`:
`AsymptoticAnalyzer` defines no method of that name anywhere in
`src/analyzer/asymptotic_analyzer.py`, so the call raises `AttributeError`
(claim C8).  The surrounding `try/except` then resets `level_costs` to `[]`. -/
def estimate_level_costs_call (_eq : String) : Except String (List String) :=
  .error
    "AttributeError: 'AsymptoticAnalyzer' object has no attribute 'estimate_level_costs'"

/-- The `try:` body of `process_code`, as an `Except`-valued pipeline.  The
parser (whose grammar file is not part of the analysis core) and the
mathematical engine's sympy solving are supplied as function arguments:
`parse` returns the `Program` AST or a parse error, `mathE` returns the pair
(solved complexities, raw cost expressions) keyed by function name, `treeB`
builds the recurrence-tree structure from an equation string.  Any `.error`
of any stage aborts the pipeline, mirroring a raised exception. -/
def processCodeE (parse : String → Except String ProgramL)
    (mathE : ProgramL →
      Except String (List (String × String) × List (String × String)))
    (treeB : String → Except String (List String))
    (code hint : String) : Except String AnalysisResultL :=
  match parse code with
  | .error e => .error e
  | .ok ast =>
    match ast.functions with
    | [] => .error "No funciones"
    | targetFunc :: _ =>
      let funcName := targetFunc.name
      let recInfo := analyze_recursive_algorithm targetFunc
      match mathE ast with
      | .error e => .error e
      | .ok (solvedResults, rawResults) =>
        let mathComp := lookupD solvedResults funcName "No determinado"
        let mathExpr := lookupD rawResults funcName "N/A"
        let heur := analyze_function_node targetFunc recInfo
        let heurRec := heur.1
        let heurBound := heur.2
        let levelCosts :=
          match estimate_level_costs_call heurRec.equation with
          | .ok l => l
          | .error _ => []
        let baseCasesStr :=
          if heurRec.base_cases.isEmpty then "N/A"
          else
            String.intercalate "\n"
              (heurRec.base_cases.map fun kv =>
                "   * " ++ kv.1 ++ " = " ++ kv.2)
        let mkResult (treeData : List String) : AnalysisResultL :=
          { filename := hint, name := funcName, code := code,
            math_expression := mathExpr, math_complexity := mathComp,
            heur_equation := heurRec.equation,
            heur_base_cases := baseCasesStr,
            heur_complexity := fmtBound heurBound,
            heur_notation := heurBound.notat,
            heur_method := heurRec.method_used,
            is_recursive := recInfo.has_recursion,
            recursion_pattern := recInfo.pattern_type,
            tree_structure_data := treeData,
            level_costs := levelCosts }
        if recInfo.has_recursion then
          let eqSource :=
            if strContains mathExpr "T(n)" then mathExpr
            else heurRec.equation
          match treeB eqSource with
          | .error e => .error e
          | .ok treeData => .ok (mkResult treeData)
        else .ok (mkResult [])

/-- `process_code`: the orchestrator boundary.  Every exception raised inside
the `try:` body is caught and encoded in the `error` field of a sentinel
result (`name = "Error"`, dataclass defaults elsewhere). -/
def process_code (parse : String → Except String ProgramL)
    (mathE : ProgramL →
      Except String (List (String × String) × List (String × String)))
    (treeB : String → Except String (List String))
    (code hint : String) : AnalysisResultL :=
  match processCodeE parse mathE treeB code hint with
  | .ok r => r
  | .error e =>
    { filename := hint, name := "Error", code := code, error := some e }

/-! ### Specification-side loop-nesting depth (for claim C4)

`ndStmt`/`ndList` is the maximum loop-nesting depth in the sense of the
specification: every `For`/`While`/`Repeat` statement counts one level,
including loops nested inside `If` branches. -/

mutual

def ndStmt : Stmt → Nat
  | .forS _ _ _ b => 1 + ndList b
  | .whileS _ b => 1 + ndList b
  | .repeatS b _ => 1 + ndList b
  | .ifS _ t e =>
    max (ndList t)
      (match e with
       | some es => ndList es
       | none => 0)
  | _ => 0

def ndList : List Stmt → Nat
  | [] => 0
  | s :: rest => max (ndStmt s) (ndList rest)

end

/-! `loopsNonemptyS`: every loop statement reachable in the tree has a
non-empty body.  On such statements the source's `_count_loop_depth` agrees
with the specification's nesting depth (see `cld_eq_nd`); a loop with an
empty body is invisible to `_count_loop_depth` (claim C4's counterexample). -/

mutual

def loopsNonemptyS : Stmt → Bool
  | .forS _ _ _ b => !b.isEmpty && loopsNonemptyL b
  | .whileS _ b => !b.isEmpty && loopsNonemptyL b
  | .repeatS b _ => !b.isEmpty && loopsNonemptyL b
  | .ifS _ t e =>
    loopsNonemptyL t &&
      (match e with
       | some es => loopsNonemptyL es
       | none => true)
  | _ => true

def loopsNonemptyL : List Stmt → Bool
  | [] => true
  | s :: rest => loopsNonemptyS s && loopsNonemptyL rest

end

/-- Rendering of `Θ(n^d)` complexities as the loop analysis produces them:
`"1"` for depth 0, `"n"` for depth 1, `"n^d"` otherwise. -/
def powStr (d : Nat) : String :=
  if d = 0 then "1" else if d = 1 then "n" else "n^" ++ natToStr d

/-! ### Concrete programs (the end-to-end scenarios of the specification) -/

/-- Scenario 1 of the spec (§8): `factorial`, linear recursion. -/
def factorialFn : FuncDef :=
  ⟨"factorial", ["n"],
   [.ifS (.condOp (.var "n") "<=" (.num 1))
      [.ret (some (.num 1))]
      (some [.ret (some (.binop (.var "n") "*"
        (.call "factorial" [.binop (.var "n") "-" (.num 1)])))])]⟩

def factorialProg : ProgramL := ⟨[factorialFn]⟩

/-- Scenario 2 of the spec (§8): `busqueda_binaria`, two recursive calls in
mutually exclusive `If` return branches. -/
def busquedaBinariaFn : FuncDef :=
  ⟨"busqueda_binaria", ["arr", "izq", "der", "x"],
   [.ifS (.condOp (.var "izq") ">" (.var "der"))
      [.ret (some (.num (-1)))] none,
    .assign (.ident "mid")
      (.binop (.binop (.var "izq") "+" (.var "der")) "/" (.num 2)),
    .ifS (.condOp (.arrayAccess "arr" (.var "mid")) "==" (.var "x"))
      [.ret (some (.var "mid"))] none,
    .ifS (.condOp (.arrayAccess "arr" (.var "mid")) ">" (.var "x"))
      [.ret (some (.call "busqueda_binaria"
        [.var "arr", .var "izq", .binop (.var "mid") "-" (.num 1),
         .var "x"]))]
      (some [.ret (some (.call "busqueda_binaria"
        [.var "arr", .binop (.var "mid") "+" (.num 1), .var "der",
         .var "x"]))])]⟩

def busquedaBinariaProg : ProgramL := ⟨[busquedaBinariaFn]⟩

/-- Scenario 4 of the spec (§8): `fib`, additive binary recursion. -/
def fibFn : FuncDef :=
  ⟨"fib", ["n"],
   [.ifS (.condOp (.var "n") "<=" (.num 1)) [.ret (some (.var "n"))] none,
    .ret (some (.binop (.call "fib" [.binop (.var "n") "-" (.num 1)]) "+"
      (.call "fib" [.binop (.var "n") "-" (.num 2)])))]⟩

/-- A function consisting of a single `For` loop with an empty body: one loop
statement, nesting depth 1, yet `_count_loop_depth` reports 0 (claim C4). -/
def emptyLoopFn : FuncDef :=
  ⟨"f", ["n"], [.forS "i" (.num 1) (.var "n") []]⟩

/-- Scenario 5 of the spec (§8): four nested `For` loops. -/
def stressFn : FuncDef :=
  ⟨"stress", ["n"],
   [.assign (.ident "s") (.num 0),
    .forS "i" (.num 1) (.var "n")
      [.forS "j" (.num 1) (.var "n")
        [.forS "k" (.num 1) (.var "n")
          [.forS "t" (.num 1) (.var "n")
            [.assign (.ident "s") (.binop (.var "s") "+" (.num 1))]]]],
    .ret (some (.var "s"))]⟩

/-- A concrete `Repeat` statement (claim C7): `repeat x = x + 1 until x < 10`. -/
def repeatStmtEx : Stmt :=
  .repeatS [.assign (.ident "x") (.binop (.var "x") "+" (.num 1))]
    (.condOp (.var "x") "<" (.num 10))

/-- Stub parser used to instantiate the orchestrator on concrete programs. -/
def parseStub (p : ProgramL) : String → Except String ProgramL :=
  fun _ => .ok p

/-- Stub mathematical engine result for concrete orchestrator runs. -/
def mathStub (solved raw : List (String × String)) :
    ProgramL → Except String (List (String × String) × List (String × String)) :=
  fun _ => .ok (solved, raw)

/-- Stub recurrence-tree builder for concrete orchestrator runs. -/
def treeStub : String → Except String (List String) :=
  fun _ => .ok []

/-! ### Helper lemmas: decimal rendering and scanning -/

theorem natCharsGo_congr :
    ∀ (n f1 f2 : Nat), n < f1 → n < f2 →
      natCharsGo f1 n = natCharsGo f2 n := by
  intro n
  induction n using Nat.strong_induction_on with
  | _ n ih =>
    intro f1 f2 h1 h2
    match f1, f2 with
    | g1 + 1, g2 + 1 =>
      rw [natCharsGo, natCharsGo]
      split
      · rfl
      · have hlt : n / 10 < n := Nat.div_lt_self (by omega) (by omega)
        rw [ih (n / 10) hlt g1 g2 (by omega) (by omega)]

/-- The recursion equation of `natChars`. -/
theorem natChars_unfold (n : Nat) :
    natChars n =
      if n < 10 then [digitChar n]
      else natChars (n / 10) ++ [digitChar (n % 10)] := by
  rw [natChars, natCharsGo]
  split
  · rfl
  · next h =>
    have hlt : n / 10 < n := Nat.div_lt_self (by omega) (by omega)
    rw [natCharsGo_congr (n / 10) n (n / 10 + 1) (by omega) (by omega)]
    rfl

theorem digitVal_digitChar {m : Nat} (h : m < 10) :
    digitVal (digitChar m) = m := by
  interval_cases m <;> rfl

theorem isDigit_digitChar {m : Nat} (h : m < 10) :
    (digitChar m).isDigit = true := by
  interval_cases m <;> rfl

theorem natChars_all_digit (n : Nat) :
    ∀ c ∈ natChars n, c.isDigit = true := by
  induction n using Nat.strong_induction_on with
  | _ n ih =>
    rw [natChars_unfold]
    split
    · intro c hc
      simp only [List.mem_singleton] at hc
      subst hc
      exact isDigit_digitChar (by omega)
    · intro c hc
      rw [List.mem_append] at hc
      rcases hc with hc | hc
      · exact ih (n / 10) (Nat.div_lt_self (by omega) (by omega)) c hc
      · simp only [List.mem_singleton] at hc
        subst hc
        exact isDigit_digitChar (Nat.mod_lt _ (by omega))

theorem natChars_ne_nil (n : Nat) : natChars n ≠ [] := by
  rw [natChars_unfold]
  split
  · simp
  · simp

theorem foldl_natChars (n : Nat) :
    (natChars n).foldl (fun a c => 10 * a + digitVal c) 0 = n := by
  induction n using Nat.strong_induction_on with
  | _ n ih =>
    rw [natChars_unfold]
    split
    · next h =>
      simp [List.foldl, digitVal_digitChar h]
    · next h =>
      rw [List.foldl_append]
      rw [ih (n / 10) (Nat.div_lt_self (by omega) (by omega))]
      simp only [List.foldl]
      rw [digitVal_digitChar (Nat.mod_lt _ (by omega))]
      omega

theorem takeWhile_eq_self_of_all {p : Char → Bool} :
    ∀ l : List Char, (∀ c ∈ l, p c = true) → l.takeWhile p = l := by
  intro l h
  induction l with
  | nil => rfl
  | cons c rest ih =>
    have hrest : ∀ d ∈ rest, p d = true := fun d hd => h d (by simp [hd])
    simp [List.takeWhile_cons, h c (by simp), ih hrest]

theorem parseDigits_natChars (n : Nat) : parseDigits (natChars n) = n := by
  rw [parseDigits, takeWhile_eq_self_of_all _ (natChars_all_digit n)]
  exact foldl_natChars n

theorem head_natChars_digit (n : Nat) :
    ((natChars n).head?.elim false Char.isDigit) = true := by
  cases h : natChars n with
  | nil => exact absurd h (natChars_ne_nil n)
  | cons c rest =>
    have : c ∈ natChars n := by rw [h]; simp
    simp [natChars_all_digit n c this]

/-! ### Helper lemmas: substring search -/

theorem isPrefixOf_append {pat l : List Char} (t : List Char)
    (h : pat.isPrefixOf l = true) : pat.isPrefixOf (l ++ t) = true := by
  rw [List.isPrefixOf_iff_prefix] at h ⊢
  exact h.trans (List.prefix_append l t)

theorem containsL_nil_pat : ∀ t : List Char, containsL t [] = true := by
  intro t
  cases t with
  | nil => rfl
  | cons c rest => simp [containsL, List.isPrefixOf]

theorem containsL_append_left {l pat : List Char} (t : List Char)
    (h : containsL l pat = true) : containsL (l ++ t) pat = true := by
  induction l with
  | nil =>
    rw [containsL] at h
    have : pat = [] := by
      cases pat with
      | nil => rfl
      | cons p ps => simp [List.isEmpty] at h
    subst this
    exact containsL_nil_pat t
  | cons c rest ih =>
    rw [containsL] at h
    rw [List.cons_append, containsL]
    rcases Bool.or_eq_true_iff.mp h with hp | hc
    · have := isPrefixOf_append (t := t) hp
      rw [List.cons_append] at this
      rw [this]
      simp
    · rw [ih hc]
      simp

/-! ### Helper lemmas: the `n\^(\d+)` scanner -/

theorem scanPow_cons_skip {c : Char} {l : List Char}
    (h : (c = 'n' && (l.head?.elim false fun c2 => c2 = '^') &&
      ((l.drop 1).head?.elim false Char.isDigit)) = false) :
    scanPow (c :: l) = scanPow l := by
  rw [scanPow, h]
  simp

theorem scanPow_hit {ds : List Char}
    (h : ds.head?.elim false Char.isDigit = true) :
    scanPow ('n' :: '^' :: ds) = some (parseDigits ds) := by
  rw [scanPow]
  simp [h]

/-- The scanner extracts `d` from `"T(n) = cn^" ++ str(d)` (the equation the
iterative analysis builds for loop depth `d ≥ 3`). -/
theorem scanPow_loop_equation (d : Nat) :
    scanPow ("T(n) = cn^" ++ natToStr d).data = some d := by
  have hdata : ("T(n) = cn^" ++ natToStr d).data =
      'T' :: '(' :: 'n' :: ')' :: ' ' :: '=' :: ' ' :: 'c' :: 'n' :: '^' ::
        natChars d := rfl
  rw [hdata]
  rw [scanPow_cons_skip (by simp)]
  rw [scanPow_cons_skip (by simp)]
  rw [scanPow_cons_skip (by simp)]
  rw [scanPow_cons_skip (by simp)]
  rw [scanPow_cons_skip (by simp)]
  rw [scanPow_cons_skip (by simp)]
  rw [scanPow_cons_skip (by simp)]
  rw [scanPow_cons_skip (by simp)]
  rw [scanPow_hit (head_natChars_digit d)]
  rw [parseDigits_natChars]

/-- The loop-analysis equation for depth `d` contains the substring `n^`. -/
theorem strContains_loop_equation (d : Nat) :
    strContains ("T(n) = cn^" ++ natToStr d) "n^" = true := by
  have hdata : ("T(n) = cn^" ++ natToStr d).data =
      "T(n) = cn^".data ++ natChars d := rfl
  rw [strContains, hdata]
  exact containsL_append_left _ (by decide)

/-! ### Helper lemmas: `_count_loop_depth` versus the nesting depth -/

theorem cldMax_eq_foldr (l : List Stmt) :
    ∀ d acc, cldMax d acc l =
      max acc (l.foldr (fun s m => max (cldStmt d s) m) 0) := by
  induction l with
  | nil => intro d acc; simp [cldMax]
  | cons s rest ih =>
    intro d acc
    rw [cldMax, ih]
    simp only [List.foldr_cons]
    omega

theorem foldr_cld_eq_add_nd {l : List Stmt} {d : Nat} (hne : l ≠ [])
    (h : ∀ s ∈ l, cldStmt d s = d + ndStmt s) :
    l.foldr (fun s m => max (cldStmt d s) m) 0 = d + ndList l := by
  induction l with
  | nil => exact absurd rfl hne
  | cons s rest ih =>
    rw [List.foldr_cons, h s (by simp), ndList]
    cases rest with
    | nil => simp [ndList]
    | cons s2 r2 =>
      rw [ih (by simp) (fun x hx => h x (by simp [hx]))]
      omega

/-- `cldMax` with accumulator at least `c`, over a branch list whose loops
are all non-empty: the result is `max acc (c + depth)`. -/
theorem cldMax_branch {l : List Stmt} {c acc : Nat} (hacc : c ≤ acc)
    (h : ∀ s ∈ l, cldStmt c s = c + ndStmt s) :
    cldMax c acc l = max acc (c + ndList l) := by
  cases l with
  | nil =>
    simp only [cldMax, ndList]
    omega
  | cons s rest =>
    rw [cldMax_eq_foldr, foldr_cld_eq_add_nd (by simp) h]

mutual

/-- On statements all of whose loop bodies are non-empty, the source's
`_count_loop_depth` computes exactly the specification's nesting depth. -/
theorem cldStmt_eq_nd : ∀ (s : Stmt) (c : Nat), loopsNonemptyS s = true →
    cldStmt c s = c + ndStmt s
  | .forS v st sp b, c => by
    intro h
    rw [loopsNonemptyS, Bool.and_eq_true] at h
    obtain ⟨hne, hl⟩ := h
    have hpt := cldList_pointwise b hl
    show cldMax (c + 1) c b = c + (1 + ndList b)
    rw [cldMax_eq_foldr,
      foldr_cld_eq_add_nd (by simpa using hne) (fun s hs => hpt s hs (c + 1))]
    omega
  | .whileS cond b, c => by
    intro h
    rw [loopsNonemptyS, Bool.and_eq_true] at h
    obtain ⟨hne, hl⟩ := h
    have hpt := cldList_pointwise b hl
    show cldMax (c + 1) c b = c + (1 + ndList b)
    rw [cldMax_eq_foldr,
      foldr_cld_eq_add_nd (by simpa using hne) (fun s hs => hpt s hs (c + 1))]
    omega
  | .repeatS b cond, c => by
    intro h
    rw [loopsNonemptyS, Bool.and_eq_true] at h
    obtain ⟨hne, hl⟩ := h
    have hpt := cldList_pointwise b hl
    show cldMax (c + 1) c b = c + (1 + ndList b)
    rw [cldMax_eq_foldr,
      foldr_cld_eq_add_nd (by simpa using hne) (fun s hs => hpt s hs (c + 1))]
    omega
  | .ifS cond t none, c => by
    intro h
    have ht : loopsNonemptyL t = true := by
      have : loopsNonemptyS (.ifS cond t none) =
          (loopsNonemptyL t && true) := rfl
      rw [this, Bool.and_eq_true] at h
      exact h.1
    have hptT := cldList_pointwise t ht
    show cldMax c c t = c + ndStmt (.ifS cond t none)
    rw [cldMax_branch (Nat.le_refl c) (fun s hs => hptT s hs c)]
    show max c (c + ndList t) = c + max (ndList t) 0
    omega
  | .ifS cond t (some es), c => by
    intro h
    have hsplit : loopsNonemptyS (.ifS cond t (some es)) =
        (loopsNonemptyL t && loopsNonemptyL es) := rfl
    rw [hsplit, Bool.and_eq_true] at h
    obtain ⟨ht, he⟩ := h
    have hptT := cldList_pointwise t ht
    have hptE := cldList_pointwise es he
    have hm : cldMax c c t = c + ndList t := by
      rw [cldMax_branch (Nat.le_refl c) (fun s hs => hptT s hs c)]
      omega
    show cldMax c (cldMax c c t) es = c + ndStmt (.ifS cond t (some es))
    rw [hm, cldMax_branch (by omega) (fun s hs => hptE s hs c)]
    show max (c + ndList t) (c + ndList es) = c + max (ndList t) (ndList es)
    omega
  | .assign tgt ex, c => by intro _; rfl
  | .ret ex, c => by intro _; rfl
  | .callS g args, c => by intro _; rfl
  | .arrayDecl a sz, c => by intro _; rfl
  | .matrixDecl m r cl, c => by intro _; rfl

theorem cldList_pointwise : ∀ (l : List Stmt),
    loopsNonemptyL l = true → ∀ s ∈ l, ∀ d, cldStmt d s = d + ndStmt s
  | [] => by
    intro _ s hs
    exact absurd hs (List.not_mem_nil s)
  | x :: rest => by
    intro hl s hs d
    rw [loopsNonemptyL, Bool.and_eq_true] at hl
    rcases List.mem_cons.mp hs with hx | hx
    · subst hx
      exact cldStmt_eq_nd s d hl.1
    · exact cldList_pointwise rest hl.2 s hx d

end

/-- `_count_loop_depth` on a function whose loop bodies are all non-empty is
the specification's maximum loop-nesting depth. -/
theorem count_loop_depth_eq_nd {f : FuncDef}
    (h : loopsNonemptyL f.body = true) :
    count_loop_depth f = ndList f.body := by
  rw [count_loop_depth,
    cldMax_branch (Nat.le_refl 0) (fun s hs => cldList_pointwise f.body h s hs 0)]
  omega

/-! ### Helper lemmas: exactness of the Master-Theorem comparisons

`L` abbreviates `log_b(a) = Real.log a / Real.log b`.  The lemmas show that
the integer-power tests `masterBelow`/`masterClose` coincide with the
`epsilon = 0.01` float comparisons of `_apply_master_theorem`, read over the
exact reals. -/

theorem cast_pow_lt_iff {u v : ℕ} (p q : ℕ) :
    (u ^ p < v ^ q) ↔ ((u : ℝ) ^ p < (v : ℝ) ^ q) := by
  exact_mod_cast Iff.rfl

theorem pow_lt_pow_iff_mul_log {u v : ℕ} (hu : 0 < u) (hv : 0 < v)
    (p q : ℕ) :
    (u ^ p < v ^ q) ↔
      ((p : ℝ) * Real.log u < (q : ℝ) * Real.log v) := by
  rw [cast_pow_lt_iff]
  have hu' : (0 : ℝ) < u := by exact_mod_cast hu
  have hv' : (0 : ℝ) < v := by exact_mod_cast hv
  rw [← Real.log_lt_log_iff (by positivity) (by positivity)]
  rw [Real.log_pow, Real.log_pow]

theorem master_below_iff {a b c : ℕ} (ha : 1 ≤ a) (hb : 2 ≤ b) :
    masterBelow a b c = true ↔
      ((c : ℝ) < Real.log a / Real.log b - 1 / 100) := by
  have hB : (1 : ℝ) < b := by exact_mod_cast (by omega : 1 < b)
  have hlb : 0 < Real.log b := Real.log_pos hB
  simp only [masterBelow, decide_eq_true_eq]
  rw [pow_lt_pow_iff_mul_log (by omega) (by omega)]
  push_cast
  rw [lt_sub_iff_add_lt, lt_div_iff₀ hlb]
  constructor
  · intro h
    nlinarith
  · intro h
    nlinarith

theorem master_upper_iff {a b c : ℕ} (ha : 1 ≤ a) (hb : 2 ≤ b) :
    (a ^ 100 < b ^ (100 * c + 1)) ↔
      (Real.log a / Real.log b < (c : ℝ) + 1 / 100) := by
  have hB : (1 : ℝ) < b := by exact_mod_cast (by omega : 1 < b)
  have hlb : 0 < Real.log b := Real.log_pos hB
  rw [pow_lt_pow_iff_mul_log (by omega) (by omega)]
  push_cast
  rw [div_lt_iff₀ hlb]
  constructor
  · intro h
    nlinarith
  · intro h
    nlinarith

theorem log_nat_mul_pow {a b : ℕ} (ha : 1 ≤ a) (hb : 2 ≤ b) :
    Real.log ((a : ℝ) ^ 100 * (b : ℝ)) =
      100 * Real.log a + Real.log b := by
  have ha' : (0 : ℝ) < (a : ℝ) ^ 100 := by positivity
  have hb' : (0 : ℝ) < b := by positivity
  rw [Real.log_mul (ne_of_gt ha') (ne_of_gt hb'), Real.log_pow]
  push_cast
  ring

theorem master_lower_iff {a b c : ℕ} (ha : 1 ≤ a) (hb : 2 ≤ b) :
    (b ^ (100 * c) < a ^ 100 * b) ↔
      ((c : ℝ) - 1 / 100 < Real.log a / Real.log b) := by
  have hB : (1 : ℝ) < b := by exact_mod_cast (by omega : 1 < b)
  have hA : (0 : ℝ) < a := by exact_mod_cast (by omega : 0 < a)
  have hlb : 0 < Real.log b := Real.log_pos hB
  have step1 : (b ^ (100 * c) < a ^ 100 * b) ↔
      ((b : ℝ) ^ (100 * c) < (a : ℝ) ^ 100 * b) := by
    exact_mod_cast Iff.rfl
  rw [step1,
    ← Real.log_lt_log_iff (by positivity) (by positivity),
    Real.log_pow, log_nat_mul_pow ha hb]
  push_cast
  rw [lt_div_iff₀ hlb]
  constructor
  · intro h
    nlinarith
  · intro h
    nlinarith

theorem master_above_iff {a b c : ℕ} (ha : 1 ≤ a) (hb : 2 ≤ b) :
    (a ^ 100 * b < b ^ (100 * c)) ↔
      (Real.log a / Real.log b < (c : ℝ) - 1 / 100) := by
  have hB : (1 : ℝ) < b := by exact_mod_cast (by omega : 1 < b)
  have hA : (0 : ℝ) < a := by exact_mod_cast (by omega : 0 < a)
  have hlb : 0 < Real.log b := Real.log_pos hB
  have step1 : (a ^ 100 * b < b ^ (100 * c)) ↔
      ((a : ℝ) ^ 100 * b < (b : ℝ) ^ (100 * c)) := by
    exact_mod_cast Iff.rfl
  rw [step1,
    ← Real.log_lt_log_iff (by positivity) (by positivity),
    Real.log_pow, log_nat_mul_pow ha hb]
  push_cast
  rw [div_lt_iff₀ hlb]
  constructor
  · intro h
    nlinarith
  · intro h
    nlinarith

theorem master_close_iff {a b c : ℕ} (ha : 1 ≤ a) (hb : 2 ≤ b) :
    masterClose a b c = true ↔
      |(c : ℝ) - Real.log a / Real.log b| < 1 / 100 := by
  simp only [masterClose, Bool.and_eq_true, decide_eq_true_eq]
  rw [abs_sub_lt_iff, master_upper_iff ha hb, master_lower_iff ha hb]
  constructor
  · rintro ⟨h1, h2⟩
    exact ⟨by linarith, by linarith⟩
  · rintro ⟨h1, h2⟩
    exact ⟨by linarith, by linarith⟩

/-! ### Claim theorems -/

/-- C1: the claim asserts that for a function with two recursive calls in
mutually exclusive `If` return branches (the binary-search scenario of §8)
the classifier reports `binary_exclusive` AND the analysis result carries
`heur_equation = "T(n) = T(n/2) + O(1)"`, `heur_complexity = "Θ(log n)"`.
The classifier part holds, and the classifier even derives the correct
relation `T(n) = T(n/2) + O(1)`, but `_construct_recurrence` has no case for
`pattern_type == 'binary_exclusive'`: the pattern falls into the final `else`
branch, which produces `heur_equation = "T(n) = 2T(n-1) + c"` and (through
the substitution solver with `a = 2`) `heur_complexity = "Θ(2^n)"`.  This
theorem evaluates the embedded code at the §8 binary-search input and
exhibits the divergence. -/
theorem claim_C1_binary_exclusive_search :
    (analyze_recursive_algorithm busquedaBinariaFn).pattern_type =
      "binary_exclusive" ∧
    (analyze_recursive_algorithm busquedaBinariaFn).recurrence_relation =
      some "T(n) = T(n/2) + O(1)" ∧
    (analyze_function_node busquedaBinariaFn
      (analyze_recursive_algorithm busquedaBinariaFn)).1.equation =
      "T(n) = 2T(n-1) + c" ∧
    (analyze_function_node busquedaBinariaFn
      (analyze_recursive_algorithm busquedaBinariaFn)).1.method_used =
      "Substitution" ∧
    fmtBound (analyze_function_node busquedaBinariaFn
      (analyze_recursive_algorithm busquedaBinariaFn)).2 = "Θ(2^n)" ∧
    ("T(n) = 2T(n-1) + c" ≠ "T(n) = T(n/2) + O(1)") ∧
    ("Θ(2^n)" ≠ "Θ(log n)") ∧
    (process_code (parseStub busquedaBinariaProg) (mathStub [] []) treeStub
        "function busqueda_binaria(arr, izq, der, x) ..."
        "busqueda_binaria.txt").heur_equation = "T(n) = 2T(n-1) + c" ∧
    (process_code (parseStub busquedaBinariaProg) (mathStub [] []) treeStub
        "function busqueda_binaria(arr, izq, der, x) ..."
        "busqueda_binaria.txt").heur_complexity = "Θ(2^n)" ∧
    (process_code (parseStub busquedaBinariaProg) (mathStub [] []) treeStub
        "function busqueda_binaria(arr, izq, der, x) ..."
        "busqueda_binaria.txt").recursion_pattern = "binary_exclusive" := by
  refine ⟨rfl, rfl, by decide, rfl, by decide, by decide, by decide,
    by decide, by decide, rfl⟩

/-- C3 (counterexample): for the §8 factorial scenario the claim expects
`heur_equation = "T(n) = T(n-1) + O(1)"`, but the asymptotic engine writes
its equations with `+ c`, so the field holds `"T(n) = T(n-1) + c"`. -/
theorem claim_C3_counterexample :
    (analyze_recursive_algorithm factorialFn).pattern_type = "linear" ∧
    (analyze_function_node factorialFn
      (analyze_recursive_algorithm factorialFn)).1.equation =
      "T(n) = T(n-1) + c" ∧
    ("T(n) = T(n-1) + c" ≠ "T(n) = T(n-1) + O(1)") := by
  refine ⟨rfl, by decide, by decide⟩

/-- C3 (amended): for every recursive-analysis record classified `linear`,
`analyze_function_node` yields the tight bound `Θ(n)` (complexity `"n"`,
notation `"Θ"`); for the factorial scenario the equation field is
`"T(n) = T(n-1) + c"` (the classifier's own relation string, not the
`heur_equation` field, reads `"T(n) = T(n-1) + O(1)"`), and the rendered
complexity is `"Θ(n)"`. -/
theorem claim_C3_linear_bound :
    (∀ (f : FuncDef) (info : RecInfo),
      info.has_recursion = true → info.pattern_type = "linear" →
      analyze_function_node f info =
        ({ equation := "T(n) = T(n-1) + c", a := some 1, b := none,
           f_n := "c", base_cases := [("T(0)", "c"), ("T(1)", "c")],
           method_used := "Substitution" },
         { complexity := "n", notat := "Θ", confidence := 95 / 100 })) ∧
    (analyze_recursive_algorithm factorialFn).recurrence_relation =
      some "T(n) = T(n-1) + O(1)" ∧
    (analyze_function_node factorialFn
      (analyze_recursive_algorithm factorialFn)).1.equation =
      "T(n) = T(n-1) + c" ∧
    fmtBound (analyze_function_node factorialFn
      (analyze_recursive_algorithm factorialFn)).2 = "Θ(n)" := by
  refine ⟨?_, rfl, by decide, by decide⟩
  intro f info h1 h2
  rw [analyze_function_node, construct_recurrence_fn, h1, h2]
  simp [solve_recurrence, apply_substitution]

/-- C3 (witness): the general linear statement applied at the concrete
factorial function. -/
theorem claim_C3_witness :
    (analyze_recursive_algorithm factorialFn).has_recursion = true ∧
    (analyze_recursive_algorithm factorialFn).pattern_type = "linear" ∧
    analyze_function_node factorialFn
      (analyze_recursive_algorithm factorialFn) =
      ({ equation := "T(n) = T(n-1) + c", a := some 1, b := none,
         f_n := "c", base_cases := [("T(0)", "c"), ("T(1)", "c")],
         method_used := "Substitution" },
       { complexity := "n", notat := "Θ", confidence := 95 / 100 }) :=
  ⟨rfl, rfl,
    claim_C3_linear_bound.1 factorialFn
      (analyze_recursive_algorithm factorialFn) rfl rfl⟩

/-- C6: a function with exactly two recursive calls whose arguments subtract
two different constants from the same parameter, not in mutually exclusive
return branches, is classified `binary` with relation
`T(n) = T(n-1) + T(n-2) + O(1)`, and the asymptotic engine answers
`Θ(2^n)` by the Recurrence Tree method. -/
theorem claim_C6_fibonacci_shape :
    ∀ (f : FuncDef) (p : String) (c1 c2 : Int),
      find_recursive_calls f =
        [[.binop (.var p) "-" (.num c1)], [.binop (.var p) "-" (.num c2)]] →
      c1 ≠ c2 →
      has_mutually_exclusive_recursive_returns f = false →
      (analyze_recursive_algorithm f).pattern_type = "binary" ∧
      (analyze_recursive_algorithm f).recurrence_relation =
        some "T(n) = T(n-1) + T(n-2) + O(1)" ∧
      (analyze_function_node f
        (analyze_recursive_algorithm f)).1.method_used = "Recurrence Tree" ∧
      fmtBound (analyze_function_node f
        (analyze_recursive_algorithm f)).2 = "Θ(2^n)" := by
  intro f p c1 c2 hcalls hne hmex
  have hsingle : ([c2] : List Int).dedup = [c2] := by simp
  have hdedup : ([c1, c2] : List Int).dedup = [c1, c2] := by
    rw [List.dedup_cons_of_not_mem (by simp [hsingle, hne]), hsingle]
  have hpat :
      analyze_call_pattern
        [[.binop (.var p) "-" (.num c1)], [.binop (.var p) "-" (.num c2)]]
        false =
        { pattern_type := "binary", has_division := false,
          has_subtraction := true, has_multiple_subtractions := true } := by
    rw [analyze_call_pattern]
    norm_num [exprOp, rightValue, List.filterMap, hdedup]
    all_goals decide
  have hrel :
      derive_recurrence_relation f
        [[.binop (.var p) "-" (.num c1)], [.binop (.var p) "-" (.num c2)]]
        false = some "T(n) = T(n-1) + T(n-2) + O(1)" := by
    rw [derive_recurrence_relation]
    simp [hpat]
  have hinfo : analyze_recursive_algorithm f =
      { function_name := f.name, has_recursion := true,
        recursive_calls :=
          [[.binop (.var p) "-" (.num c1)], [.binop (.var p) "-" (.num c2)]],
        pattern_type := "binary",
        recurrence_relation := some "T(n) = T(n-1) + T(n-2) + O(1)",
        exclusive_branch_calls := false } := by
    rw [analyze_recursive_algorithm, hcalls, hmex]
    simp [hpat, hrel]
  refine ⟨by rw [hinfo], by rw [hinfo], ?_, ?_⟩
  · rw [analyze_function_node, hinfo, construct_recurrence_fn]
    by_cases hfd :
        (([[Expr.binop (.var p) "-" (.num c1)],
           [Expr.binop (.var p) "-" (.num c2)]].take 2).any fun args =>
          args.any fun a =>
            match a with
            | .binop _ op (.num v) => op = "-" && (v = 1 || v = 2)
            | _ => false) = true <;>
      simp [hfd]
  · rw [analyze_function_node, hinfo, construct_recurrence_fn]
    by_cases hfd :
        (([[Expr.binop (.var p) "-" (.num c1)],
           [Expr.binop (.var p) "-" (.num c2)]].take 2).any fun args =>
          args.any fun a =>
            match a with
            | .binop _ op (.num v) => op = "-" && (v = 1 || v = 2)
            | _ => false) = true <;>
      simp [hfd] <;> decide

/-- C6 (witness): the Fibonacci function of §8 satisfies the hypotheses and
receives the claimed classification and bound. -/
theorem claim_C6_witness :
    find_recursive_calls fibFn =
      [[.binop (.var "n") "-" (.num 1)], [.binop (.var "n") "-" (.num 2)]] ∧
    (analyze_recursive_algorithm fibFn).pattern_type = "binary" ∧
    (analyze_recursive_algorithm fibFn).recurrence_relation =
      some "T(n) = T(n-1) + T(n-2) + O(1)" ∧
    fmtBound (analyze_function_node fibFn
      (analyze_recursive_algorithm fibFn)).2 = "Θ(2^n)" :=
  ⟨rfl,
    (claim_C6_fibonacci_shape fibFn "n" 1 2 rfl (by decide) rfl).1,
    (claim_C6_fibonacci_shape fibFn "n" 1 2 rfl (by decide) rfl).2.1,
    (claim_C6_fibonacci_shape fibFn "n" 1 2 rfl (by decide) rfl).2.2.2⟩

/-- C7 (counterexample): the claim asserts that BOTH `While` and `Repeat`
loops cost `(body + condition) · k`.  `Repeat` has no `_get_cost_Repeat`
visitor, so the dispatch falls back to the default cost 1: for the concrete
statement `repeat x = x + 1 until x < 10` the cost is the integer 1, which is
not a product in either argument order. -/
theorem claim_C7_counterexample :
    gcStmt "f" [] repeatStmtEx = .intE 1 ∧
    gcStmt "f" [] repeatStmtEx ≠
      SymExpr.mulE
        (.addE
          (sumCosts (gcStmtList "f" []
            [.assign (.ident "x") (.binop (.var "x") "+" (.num 1))]))
          (gcExpr "f" [] (.condOp (.var "x") "<" (.num 10))))
        (.symE "k") ∧
    gcStmt "f" [] repeatStmtEx ≠
      SymExpr.mulE (.symE "k")
        (.addE (gcExpr "f" [] (.condOp (.var "x") "<" (.num 10)))
          (sumCosts (gcStmtList "f" []
            [.assign (.ident "x") (.binop (.var "x") "+" (.num 1))]))) := by
  refine ⟨rfl, by decide, by decide⟩

/-- C7 (amended): the `While` cost is the symbol `k` times
(condition cost + body cost) — the product the source builds, equal as a
sympy expression to the claim's `(body + condition) · k` by commutativity —
while a `Repeat` loop falls back to the default cost 1. -/
theorem claim_C7_while_repeat_cost :
    (∀ (cur : String) (known : List String) (c : Expr) (b : List Stmt),
      gcStmt cur known (.whileS c b) =
        SymExpr.mulE (.symE "k")
          (.addE (gcExpr cur known c) (sumCosts (gcStmtList cur known b)))) ∧
    (∀ (cur : String) (known : List String) (c : Expr) (b : List Stmt),
      gcStmt cur known (.repeatS b c) = .intE 1) :=
  ⟨fun _ _ _ _ => rfl, fun _ _ _ _ => rfl⟩

/-- C10: `MathematicalAnalyzer.analyze` raises `TypeError` on any non-Program
input before any analysis, and on a `Program` returns one entry per function,
keyed by the function's name. -/
theorem claim_C10_math_analyze :
    ∀ (solve : CostResult → String) (inp : AnalyzeInput),
      (∀ s, inp = .notProgram s →
        math_analyze solve inp = .error "Se esperaba un nodo Program.") ∧
      (∀ p, inp = .prog p →
        ∃ res, math_analyze solve inp = .ok res ∧
          res.map Prod.fst = p.functions.map FuncDef.name) := by
  intro solve inp
  constructor
  · intro s hs
    subst hs
    rfl
  · intro p hp
    subst hp
    refine ⟨_, rfl, ?_⟩
    rw [List.map_map]
    rfl

/-- C10 (witness): the type check rejects a non-Program value and the
factorial program is mapped to its single function name. -/
theorem claim_C10_witness :
    math_analyze (fun _ => "O(n)") (.notProgram "a string") =
      .error "Se esperaba un nodo Program." ∧
    ∃ res, math_analyze (fun _ => "O(n)") (.prog factorialProg) = .ok res ∧
      res.map Prod.fst = ["factorial"] :=
  ⟨(claim_C10_math_analyze (fun _ => "O(n)") (.notProgram "a string")).1
      "a string" rfl,
    (claim_C10_math_analyze (fun _ => "O(n)") (.prog factorialProg)).2
      factorialProg rfl⟩

/-- Every successful run of the orchestrator pipeline yields a result with
an empty `error` field and (because `estimate_level_costs` does not exist on
the asymptotic engine) an empty `level_costs` list. -/
theorem processCodeE_ok_inv
    (parse : String → Except String ProgramL)
    (mathE : ProgramL →
      Except String (List (String × String) × List (String × String)))
    (treeB : String → Except String (List String))
    (code hint : String) (r : AnalysisResultL)
    (h : processCodeE parse mathE treeB code hint = .ok r) :
    r.error = none ∧ r.level_costs = [] := by
  simp only [processCodeE] at h
  split at h
  · exact absurd h (by simp)
  · split at h
    · exact absurd h (by simp)
    · split at h
      · exact absurd h (by simp)
      · split at h
        · split at h
          · exact absurd h (by simp)
          · cases h
            exact ⟨rfl, rfl⟩
        · cases h
          exact ⟨rfl, rfl⟩

/-- C2: `process_code` is a total function of its inputs (the Lean embedding
is total by construction, mirroring the `try/except` boundary): whenever the
pipeline body fails with an exception `e`, the returned `AnalysisResult` is
the sentinel record with `error = some e`; whenever it succeeds, the returned
result is the assembled record, whose `error` field is `none`. -/
theorem claim_C2_process_code_never_raises :
    ∀ (parse : String → Except String ProgramL)
      (mathE : ProgramL →
        Except String (List (String × String) × List (String × String)))
      (treeB : String → Except String (List String))
      (code hint : String),
      (∀ e, processCodeE parse mathE treeB code hint = .error e →
        process_code parse mathE treeB code hint =
          { filename := hint, name := "Error", code := code,
            error := some e }) ∧
      (∀ r, processCodeE parse mathE treeB code hint = .ok r →
        process_code parse mathE treeB code hint = r ∧ r.error = none) := by
  intro parse mathE treeB code hint
  constructor
  · intro e he
    rw [process_code, he]
  · intro r hr
    rw [process_code, hr]
    exact ⟨rfl, (processCodeE_ok_inv parse mathE treeB code hint r hr).1⟩

/-- C2 (witness): a failing parser's message is recorded in `error`, and a
successful factorial run returns the assembled record with `error = none`. -/
theorem claim_C2_witness :
    process_code (fun _ => .error "SyntaxError: line 1")
      (mathStub [] []) treeStub "garbage" "g.txt" =
      { filename := "g.txt", name := "Error", code := "garbage",
        error := some "SyntaxError: line 1" } ∧
    (process_code (parseStub factorialProg)
      (mathStub [("factorial", "O(n)")]
        [("factorial", "Eq(T(n), T(n - 1) + 5)")])
      treeStub "function factorial(n) ..." "factorial.txt").error = none := by
  constructor
  · exact (claim_C2_process_code_never_raises
      (fun _ => .error "SyntaxError: line 1") (mathStub [] []) treeStub
      "garbage" "g.txt").1 "SyntaxError: line 1" rfl
  · exact ((claim_C2_process_code_never_raises (parseStub factorialProg)
      (mathStub [("factorial", "O(n)")]
        [("factorial", "Eq(T(n), T(n - 1) + 5)")])
      treeStub "function factorial(n) ..." "factorial.txt").2 _
        rfl).2

/-- C8: the claim asserts that the asymptotic engine provides
`estimate_level_costs(eq)` and that the orchestrator uses it to populate a
non-empty `level_costs` for every recursive input.  `AsymptoticAnalyzer`
defines no such method, so the orchestrator's call raises `AttributeError`,
the surrounding `try/except` swallows it, and `level_costs` is ALWAYS the
empty list — including for the recursive factorial scenario, as the second
conjunct evaluates. -/
theorem claim_C8_level_costs_empty :
    (∀ (parse : String → Except String ProgramL)
      (mathE : ProgramL →
        Except String (List (String × String) × List (String × String)))
      (treeB : String → Except String (List String))
      (code hint : String) (r : AnalysisResultL),
      processCodeE parse mathE treeB code hint = .ok r →
      r.level_costs = []) ∧
    ((process_code (parseStub factorialProg)
        (mathStub [("factorial", "O(n)")]
          [("factorial", "Eq(T(n), T(n - 1) + 5)")])
        treeStub "function factorial(n) ..." "factorial.txt").is_recursive =
      true ∧
     (process_code (parseStub factorialProg)
        (mathStub [("factorial", "O(n)")]
          [("factorial", "Eq(T(n), T(n - 1) + 5)")])
        treeStub "function factorial(n) ..." "factorial.txt").level_costs =
      []) := by
  constructor
  · intro parse mathE treeB code hint r h
    exact (processCodeE_ok_inv parse mathE treeB code hint r h).2
  · constructor
    · decide
    · decide

/-- C8 (witness): the universal part applied to the concrete factorial run. -/
theorem claim_C8_witness :
    (process_code (parseStub factorialProg)
      (mathStub [("factorial", "O(n)")]
        [("factorial", "Eq(T(n), T(n - 1) + 5)")])
      treeStub "function factorial(n) ..." "factorial.txt").level_costs =
      [] := by
  have h : processCodeE (parseStub factorialProg)
      (mathStub [("factorial", "O(n)")]
        [("factorial", "Eq(T(n), T(n - 1) + 5)")])
      treeStub "function factorial(n) ..." "factorial.txt" =
      .ok (process_code (parseStub factorialProg)
        (mathStub [("factorial", "O(n)")]
          [("factorial", "Eq(T(n), T(n - 1) + 5)")])
        treeStub "function factorial(n) ..." "factorial.txt") := rfl
  exact claim_C8_level_costs_empty.1 _ _ _ _ _ _ h

/-- A non-recursive analysis record still carries `pattern_type = "none"`. -/
theorem analyze_norec_pattern (f : FuncDef)
    (h : (analyze_recursive_algorithm f).has_recursion = false) :
    (analyze_recursive_algorithm f).pattern_type = "none" := by
  rw [analyze_recursive_algorithm] at h ⊢
  split at h
  · next hc => rw [if_pos hc]
  · next hc => simp at h

/-- C4 (counterexample): a non-recursive function whose single statement is a
`For` loop with an empty body has maximum loop-nesting depth 1, so the claim
demands `Θ(n)`; but `_count_loop_depth` never counts a loop whose body list
is empty, so the engine reports depth 0 and the bound `Θ(1)`. -/
theorem claim_C4_counterexample :
    (analyze_recursive_algorithm emptyLoopFn).has_recursion = false ∧
    ndList emptyLoopFn.body = 1 ∧
    count_loop_depth emptyLoopFn = 0 ∧
    fmtBound (analyze_function_node emptyLoopFn
      (analyze_recursive_algorithm emptyLoopFn)).2 = "Θ(1)" ∧
    ("Θ(1)" ≠ "Θ(n)") := by
  refine ⟨rfl, rfl, rfl, by decide, by decide⟩

/-- Unfolding of the second component of `analyze_function_node` (the bound,
after the linear-pattern safety correction). -/
theorem analyze_function_node_snd (f : FuncDef) (i : RecInfo) :
    (analyze_function_node f i).2 =
      (if i.pattern_type = "linear" &&
          ((solve_recurrence (construct_recurrence_fn f i)).complexity = "1"
            || (solve_recurrence (construct_recurrence_fn f i)).complexity
              = "") then
        { solve_recurrence (construct_recurrence_fn f i) with
            complexity := "n", notat := "Θ" }
      else solve_recurrence (construct_recurrence_fn f i)) := rfl

/-- The solver dispatch sends a `Loop Analysis` equation to `analyze_loops`. -/
theorem solve_recurrence_loop (r : RecurrenceEquation)
    (h : r.method_used = "Loop Analysis") :
    solve_recurrence r = analyze_loops r := by
  rw [solve_recurrence, h]
  rw [if_neg (by decide), if_neg (by decide), if_neg (by decide),
    if_pos rfl]

/-- C4 (amended): for every non-recursive function all of whose loop bodies
are non-empty, the asymptotic bound is determined solely by the maximum
loop-nesting depth `d` (counting `For`, `While` and `Repeat`, including loops
inside `If` branches): complexity `"1"` when `d = 0` and `"n^d"` (rendered
`"n"` for `d = 1`) when `d ≥ 1`, always with notation `Θ`. -/
theorem claim_C4_loop_depth_bound :
    ∀ f : FuncDef,
      (analyze_recursive_algorithm f).has_recursion = false →
      loopsNonemptyL f.body = true →
      (analyze_function_node f (analyze_recursive_algorithm f)).2 =
        { complexity := powStr (ndList f.body), notat := "Θ",
          confidence := 95 / 100 } := by
  intro f hnr hne
  have hpat := analyze_norec_pattern f hnr
  have hiter : construct_recurrence_fn f (analyze_recursive_algorithm f) =
      analyze_iterative f := by
    rw [construct_recurrence_fn, hnr]
    simp
  have hd : count_loop_depth f = ndList f.body := count_loop_depth_eq_nd hne
  have hit : analyze_iterative f =
      { equation :=
          if ndList f.body = 0 then "T(n) = c"
          else if ndList f.body = 1 then "T(n) = cn"
          else if ndList f.body = 2 then "T(n) = cn²"
          else "T(n) = cn^" ++ natToStr (ndList f.body),
        a := none, b := none, f_n := "c", base_cases := [("T(0)", "c")],
        method_used := "Loop Analysis" } := by
    rw [analyze_iterative, hd]
  have hb : solve_recurrence (construct_recurrence_fn f
      (analyze_recursive_algorithm f)) =
      { complexity := powStr (ndList f.body), notat := "Θ",
        confidence := 95 / 100 } := by
    rw [hiter, hit]
    by_cases hD0 : ndList f.body = 0
    · rw [hD0]
      rfl
    · by_cases hD1 : ndList f.body = 1
      · rw [hD1]
        rfl
      · by_cases hD2 : ndList f.body = 2
        · rw [hD2]
          rfl
        · rw [if_neg hD0, if_neg hD1, if_neg hD2]
          rw [solve_recurrence_loop _ rfl]
          rw [analyze_loops]
          simp only [strContains_loop_equation, scanPow_loop_equation,
            if_true]
          rw [powStr, if_neg hD0, if_neg hD1]
  rw [analyze_function_node_snd, hb, hpat]
  simp

/-- C4 (witness): the four-nested-loop stress function of §8 is non-recursive
with depth 4 and receives the bound `Θ(n^4)`. -/
theorem claim_C4_witness :
    (analyze_recursive_algorithm stressFn).has_recursion = false ∧
    loopsNonemptyL stressFn.body = true ∧
    ndList stressFn.body = 4 ∧
    (analyze_function_node stressFn
      (analyze_recursive_algorithm stressFn)).2 =
      { complexity := "n^4", notat := "Θ", confidence := 95 / 100 } := by
  refine ⟨rfl, rfl, rfl, ?_⟩
  have h := claim_C4_loop_depth_bound stressFn rfl rfl
  rw [show powStr (ndList stressFn.body) = "n^4" from rfl] at h
  exact h

/-- C9: whenever the case analyzer's algorithm-type determination (structural
detection, caller fallback, then refinement against the recurrence/complexity
strings) settles on `constant`, and at least one of the recurrence/complexity
strings is present (otherwise the source crashes in the missing
`_build_math_based_cases` helper), all three produced `CaseAnalysis` records
report complexity `Θ(1)`. -/
theorem claim_C9_constant_cases :
    ∀ (detected given : String) (hasBS : Bool) (nrec : Nat)
      (funcName recEq comp : String),
      ¬(recEq = "" ∧ comp = "") →
      determined_algorithm_type detected given hasBS nrec recEq comp =
        "constant" →
      analyze_all_cases detected given hasBS nrec funcName recEq comp =
        .ok (⟨"best", "Θ(1)"⟩, ⟨"worst", "Θ(1)"⟩, ⟨"average", "Θ(1)"⟩) := by
  intro detected given hasBS nrec funcName recEq comp hnn hdet
  rw [analyze_all_cases]
  simp only [hdet]
  rw [if_neg hnn]
  simp [best_case_complexity, worst_case_complexity, average_case_complexity]

/-- C9 (witness): the constant-time scenario of §8 — structural detection
`constant`, recurrence `T(n) = c`, complexity `1` — yields the `Θ(1)`
triple. -/
theorem claim_C9_witness :
    ¬(("T(n) = c" : String) = "" ∧ ("1" : String) = "") ∧
    determined_algorithm_type "constant" "unknown" false 0 "T(n) = c" "1" =
      "constant" ∧
    analyze_all_cases "constant" "unknown" false 0 "c" "T(n) = c" "1" =
      .ok (⟨"best", "Θ(1)"⟩, ⟨"worst", "Θ(1)"⟩, ⟨"average", "Θ(1)"⟩) :=
  ⟨by decide, rfl,
    claim_C9_constant_cases "constant" "unknown" false 0 "c" "T(n) = c" "1"
      (by decide) rfl⟩

/-- C5: for a divide-and-conquer recurrence with parameters `a ≥ 1`, `b ≥ 2`
and work term of polynomial degree `c`, the solver implements the three-case
Master Theorem with tolerance `ε = 0.01` on `L = log_b(a)`:
`c < L - ε` gives `Θ(n^L)` (rendered by `format_complexity`),
`|c - L| < ε` gives `Θ(n^c log n)` (rendered `log n` for `c = 0`,
`n log n` for `c = 1`), and `c > L + ε` gives `Θ(f(n))` (rendered `n^c`, the
polynomial degree of `f`).  The embedded comparisons are the exact
integer-power equivalents of the source's float comparisons (bridged by
`master_below_iff`/`master_close_iff`). -/
theorem claim_C5_master_theorem :
    ∀ (a b c : Nat) (fn equation : String) (bcs : List (String × String))
      (m : String),
      1 ≤ a → 2 ≤ b → degreeOfFn fn = c →
      (((c : ℝ) < Real.log a / Real.log b - 1 / 100 →
        apply_master_theorem ⟨equation, some a, some b, fn, bcs, m⟩ =
          { complexity := format_complexity a b, notat := "Θ",
            confidence := 95 / 100 }) ∧
       (|(c : ℝ) - Real.log a / Real.log b| < 1 / 100 →
        apply_master_theorem ⟨equation, some a, some b, fn, bcs, m⟩ =
          { complexity :=
              if c = 0 then "log n"
              else if c = 1 then "n log n"
              else "n^" ++ natToStr c ++ " log n",
            notat := "Θ", confidence := 95 / 100 }) ∧
       (Real.log a / Real.log b + 1 / 100 < (c : ℝ) →
        apply_master_theorem ⟨equation, some a, some b, fn, bcs, m⟩ =
          { complexity := if c = 1 then "n" else "n^" ++ natToStr c,
            notat := "Θ", confidence := 95 / 100 })) := by
  intro a b c fn equation bcs m ha hb hdeg
  have hrfl : apply_master_theorem ⟨equation, some a, some b, fn, bcs, m⟩ =
      (if masterBelow a b (degreeOfFn fn) then
        { complexity := format_complexity a b, notat := "Θ",
          confidence := 95 / 100 }
      else if masterClose a b (degreeOfFn fn) then
        { complexity :=
            if degreeOfFn fn = 0 then "log n"
            else if degreeOfFn fn = 1 then "n log n"
            else "n^" ++ natToStr (degreeOfFn fn) ++ " log n",
          notat := "Θ", confidence := 95 / 100 }
      else
        { complexity :=
            if degreeOfFn fn = 1 then "n"
            else "n^" ++ natToStr (degreeOfFn fn),
          notat := "Θ", confidence := 95 / 100 }) := rfl
  rw [hrfl, hdeg]
  refine ⟨?_, ?_, ?_⟩
  · intro h1
    rw [if_pos ((master_below_iff ha hb).mpr h1)]
  · intro h2
    obtain ⟨hup, hlo⟩ := abs_sub_lt_iff.mp h2
    have hnb : ¬(masterBelow a b c = true) := fun hh => by
      have := (master_below_iff ha hb).mp hh
      linarith
    rw [if_neg hnb, if_pos ((master_close_iff ha hb).mpr h2)]
  · intro h3
    have hnb : ¬(masterBelow a b c = true) := fun hh => by
      have := (master_below_iff ha hb).mp hh
      linarith
    have hnc : ¬(masterClose a b c = true) := fun hh => by
      have := abs_sub_lt_iff.mp ((master_close_iff ha hb).mp hh)
      have h1 := this.1
      linarith
    rw [if_neg hnb, if_neg hnc]

/-- C5 (witness): the binary-search recurrence `T(n) = T(n/2) + c`
(`a = 1`, `b = 2`, degree 0): `log_2(1) = 0` is within `ε` of `c = 0`, so
case 2 applies and the bound is `Θ(log n)`. -/
theorem claim_C5_witness :
    apply_master_theorem
      ⟨"T(n) = T(n/2) + c", some 1, some 2, "c", [("T(1)", "c")],
        "Master Theorem"⟩ =
      { complexity := "log n", notat := "Θ", confidence := 95 / 100 } := by
  have habs :
      |((0 : Nat) : ℝ) - Real.log ((1 : Nat) : ℝ) / Real.log ((2 : Nat) : ℝ)|
        < 1 / 100 := by
    push_cast
    rw [Real.log_one]
    norm_num
  have h := (claim_C5_master_theorem 1 2 0 "c" "T(n) = T(n/2) + c"
    [("T(1)", "c")] "Master Theorem" (by omega) (by omega) (by decide)).2.1
    habs
  simpa using h
